import Mathlib

/-! # ACTS: abort-condition evaluator, Runge-Kutta propagation, rectangle bounds

A shallow embedding of

* `Core/include/ACTS/Propagator/detail/abort_list_implementation.hpp`
  (`condition_caller`, `abort_list_impl`), and
* `Core/include/ACTS/Extrapolation/detail/RungeKuttaEngine.ipp`
  (`RungeKuttaEngine::propagateRungeKuttaT`), and
* `Core/src/Surfaces/RectangleBounds.cpp` (`RectangleBounds::minDistance`),

followed by theorems about them.

Conventions of the embedding.

* A C++ function that writes through a reference or pointer argument becomes a
  function that returns the new value of that argument next to its result.
* Every call of a collaborator is recorded, in program order, in a call log that
  the embedded function returns besides its result. The log is the observable
  that statements about "is invoked" refer to.
* `double` is idealised as an exact rational number (`ℚ`): no rounding, no NaN,
  no infinities. `RectangleBounds::minDistance`, which takes a square root, is
  written over any ordered field and studied over the real numbers.
-/

set_option autoImplicit false

namespace Acts

namespace detail

/-! ## Abort list (`abort_list_implementation.hpp`) -/

/-- The compile-time vocabulary the abort list is instantiated with: the observer
types a condition may name (`observer_type_t`), the result types stored in the
result bundle, the C++ type behind each of them, and the map `result_type_t`
from an observer to its result type. -/
structure Schema where
  /-- the observer types -/
  Observer : Type
  /-- the result types held by the result bundle -/
  ResultType : Type
  /-- the values of a given result type -/
  Slice : ResultType → Type
  /-- the typedef `result_type_t<observer>` -/
  result_type_t : Observer → ResultType

/-- The result bundle `r`: `r.get<result_type>()` is `r result_type`. -/
abbrev Result (S : Schema) : Type := (t : S.ResultType) → S.Slice t

/-- An abort condition, in one of the two call shapes the header supports. The
cache is taken by non-const reference (`input& cache`), so a call returns the
cache it leaves behind together with its verdict.

* `cacheOnly call`: the condition is called as `c(cache)`;
* `usingResult observer call`: the condition declares `observer` as its
  `observer_type` and is called as `c(r.get<result_type_t<observer>>(), cache)`. -/
inductive Condition (S : Schema) (Cache : Type) : Type where
  | cacheOnly (call : Cache → Bool × Cache)
  | usingResult (observer_type : S.Observer)
      (call : S.Slice (S.result_type_t observer_type) → Cache → Bool × Cache)

/-- The trait `condition_uses_result_type<condition>::value`. Its header is not
part of the sources at hand; it is the compile-time tag telling the two call
shapes apart. -/
def condition_uses_result_type {S : Schema} {Cache : Type} : Condition S Cache → Bool
  | .cacheOnly _ => false
  | .usingResult _ _ => true

/-- One recorded call of a condition: the condition called, the typed slice of
the result bundle handed to it (`none` when it was called with the cache only),
the cache handed to it, and the verdict it returned. -/
structure Invocation (S : Schema) (Cache : Type) where
  /-- the condition that was called -/
  condition : Condition S Cache
  /-- the typed result argument, if one was passed -/
  slice : Option (Sigma S.Slice)
  /-- the cache the condition was called on -/
  cache : Cache
  /-- the value the condition returned -/
  returned : Bool

/-- What a `check` leaves behind: its return value, the cache after the call,
and the calls of conditions it made, in program order. -/
structure Checked (S : Schema) (Cache : Type) where
  /-- the returned flag: `true` means abort -/
  abort : Bool
  /-- the cache after the call -/
  cache : Cache
  /-- the conditions invoked, first call first -/
  calls : List (Invocation S Cache)

/-- The two specialisations of `condition_caller<has_result>::check` (lines 20-45):
with `has_result = true` the condition receives `r.get<result_type>()` and the
cache, with `has_result = false` the cache alone. -/
def condition_caller.check {S : Schema} {Cache : Type}
    (c : Condition S Cache) (r : Result S) (cache : Cache) : Checked S Cache :=
  match c with
  | .usingResult observer_type call =>
      let out := call (r (S.result_type_t observer_type)) cache
      ⟨out.1, out.2,
        [⟨c, some ⟨S.result_type_t observer_type, r (S.result_type_t observer_type)⟩,
          cache, out.1⟩]⟩
  | .cacheOnly call =>
      let out := call cache
      ⟨out.1, out.2, [⟨c, none, cache, out.1⟩]⟩

/-- The three specialisations of `abort_list_impl<conditions...>::check`
(lines 47-99). The tuple of conditions is the list, `std::get<first>` its head.

* `abort_list_impl<>`: returns `false`;
* `abort_list_impl<last>`: returns the verdict of the only condition;
* `abort_list_impl<first, others...>`: `caller(first) || check(others...)`, where
  `||` does not evaluate its right operand when the left one is `true`. -/
def abort_list_impl.check {S : Schema} {Cache : Type} :
    List (Condition S Cache) → Result S → Cache → Checked S Cache
  | [], _, cache => ⟨false, cache, []⟩
  | [last], r, cache => condition_caller.check last r cache
  | first :: others, r, cache =>
      let head := condition_caller.check first r cache
      if head.abort then
        ⟨true, head.cache, head.calls⟩
      else
        let tail := abort_list_impl.check others r head.cache
        ⟨tail.abort, tail.cache, head.calls ++ tail.calls⟩

/-- The calls in a log are chained: the first one is made on `cache`, and each
later one on the cache its predecessor left behind. -/
def Threaded {S : Schema} {Cache : Type} (r : Result S) :
    Cache → List (Invocation S Cache) → Prop
  | _, [] => True
  | cache, e :: es =>
      e.cache = cache ∧ Threaded r (condition_caller.check e.condition r cache).cache es

/-- The slice `condition_caller` hands to a condition: none for a cache-only
condition, the slice of its observer's result type otherwise. -/
def expectedSlice {S : Schema} {Cache : Type} (c : Condition S Cache) (r : Result S) :
    Option (Sigma S.Slice) :=
  match c with
  | .cacheOnly _ => none
  | .usingResult o _ => some ⟨S.result_type_t o, r (S.result_type_t o)⟩

/-! ### The test vocabulary used in concrete instances -/

/-- A schema with two observers whose results are a number and a flag. -/
def demoSchema : Schema where
  Observer := Bool
  ResultType := Bool
  Slice := fun t => if t then Nat else Bool
  result_type_t := fun o => o

/-- A result bundle for `demoSchema`: the number 7 and the flag `false`. -/
def demoResult : Result demoSchema := fun t =>
  match t with
  | true => (7 : Nat)
  | false => false

/-- A cache-only condition that appends `tag` to the cache (a list of tags) and
returns `verdict`: the cache then shows which conditions ran. -/
def probe (tag : Nat) (verdict : Bool) : Condition demoSchema (List Nat) :=
  .cacheOnly (fun cache => (verdict, cache ++ [tag]))

/-- A pure cache-only condition: aborts when the cache holds more than `n` tags. -/
def longerThan (n : Nat) : Condition demoSchema (List Nat) :=
  .cacheOnly (fun cache => (decide (n < cache.length), cache))

/-- A result-consuming condition on the numeric slice: aborts when the slice
exceeds `n`; it leaves the cache alone. -/
def sliceAbove (n : Nat) : Condition demoSchema (List Nat) :=
  .usingResult true (fun (x : Nat) cache => (decide (n < x), cache))

end detail

end Acts

namespace Acts

/-! ## Propagation (`RungeKuttaEngine.ipp`) -/

/-- The enumeration `Surface::SurfaceType`, as far as `propagateRungeKuttaT`
tells its values apart: the six it names, and `Other` for every remaining
enumerator. -/
inductive SurfaceType where
  | Cone
  | Cylinder
  | Disc
  | Perigee
  | Plane
  | Line
  | Other
  deriving DecidableEq

/-- What `propagateRungeKuttaT` reads of the destination surface. `BC` is the type
of the boundary-check directive (`BoundaryCheck`), declared elsewhere.

* `transform i j` is `dSurface.transform()(i, j)`: column 3 is the translation,
  column 2 the third rotation column;
* `r`, `halfPhiSector`, `tanAlpha` are `bounds().r()`, `bounds().halfPhiSector()`
  and `bounds().tanAlpha()`, each read only for the surface type that has it. -/
structure Surface (BC : Type) where
  /-- the tag `dSurface.type()` -/
  type : SurfaceType
  /-- the placement `dSurface.transform()` -/
  transform : Nat → Nat → ℚ
  /-- the cylinder radius -/
  r : ℚ
  /-- half the covered azimuthal sector of a cylinder -/
  halfPhiSector : ℚ
  /-- the tangent of the half opening angle of a cone -/
  tanAlpha : ℚ
  /-- the predicate `dSurface.insideBounds(lPosition, bcheck)` -/
  insideBounds : ℚ × ℚ → BC → Bool

/-- The fields of `PropagationCache` that `propagateRungeKuttaT` reads or writes.
Arrays (`double[]`) are functions of the index; the owning pointer `covariance`
is an option, `none` being `nullptr`. -/
structure PropagationCache (BC : Type) where
  /-- the global state `pVector` -/
  pVector : Nat → ℚ
  /-- the local parameters `parameters` -/
  parameters : Nat → ℚ
  /-- the transport matrix `jacobian` -/
  jacobian : Nat → ℚ
  /-- the transported covariance, or null -/
  covariance : Option (Nat → Nat → ℚ)
  /-- the realized signed path length `step` -/
  step : ℚ
  /-- the requested direction `direction` -/
  direction : ℚ
  /-- the flag `useJacobian` -/
  useJacobian : Bool
  /-- the flag `maxPathLimit` -/
  maxPathLimit : Bool
  /-- the flag `returnCurvilinear` -/
  returnCurvilinear : Bool
  /-- the directive `boundaryCheck` -/
  boundaryCheck : BC

/-- The collaborators `propagateRungeKuttaT` calls, none of which is defined in
the sources at hand; each is taken as a parameter, with the shape of its call
site. `T` is the track-parameter type of the template.

* `transformLocalToGlobal useJacobian parametersT pVector` returns its flag and
  the `pVector` it wrote;
* `propagateWithJacobian navigationStep pCache kind s` (the stepping kernel)
  returns its flag, the cache it leaves (taken by reference) and the array `s`
  it leaves (taken as `double*`);
* `newCrossPoint cylinder r0 pVector` is a predicate;
* `transformGlobalToLocal surface useJacobian pVector parameters jacobian` and
  `transformGlobalToCurvilinear useJacobian pVector parameters jacobian` return
  the three arrays they were given, as they leave them;
* `newCovarianceMatrix jacobian inputCovariance` returns the matrix it allocates;
* `covariance parametersT` is `*parametersT.covariance()`, which the source
  dereferences without a test;
* `boundaryCheckOn bcheck` is the conversion of a `BoundaryCheck` to `bool`. -/
structure RungeKuttaEngine (T BC : Type) where
  /-- `m_rkUtils.transformLocalToGlobal` -/
  transformLocalToGlobal : Bool → T → (Nat → ℚ) → Bool × (Nat → ℚ)
  /-- `propagateWithJacobian`, the stepping kernel -/
  propagateWithJacobian :
    Int → PropagationCache BC → Nat → List ℚ → Bool × PropagationCache BC × List ℚ
  /-- `newCrossPoint` -/
  newCrossPoint : Surface BC → List ℚ → (Nat → ℚ) → Bool
  /-- `m_rkUtils.transformGlobalToLocal` -/
  transformGlobalToLocal : Surface BC → Bool → (Nat → ℚ) → (Nat → ℚ) → (Nat → ℚ) →
    (Nat → ℚ) × (Nat → ℚ) × (Nat → ℚ)
  /-- `m_rkUtils.transformGlobalToCurvilinear` -/
  transformGlobalToCurvilinear : Bool → (Nat → ℚ) → (Nat → ℚ) → (Nat → ℚ) →
    (Nat → ℚ) × (Nat → ℚ) × (Nat → ℚ)
  /-- `m_rkUtils.newCovarianceMatrix` -/
  newCovarianceMatrix : (Nat → ℚ) → (Nat → Nat → ℚ) → (Nat → Nat → ℚ)
  /-- `*parametersT.covariance()` -/
  covariance : T → (Nat → Nat → ℚ)
  /-- `BoundaryCheck::operator bool` -/
  boundaryCheckOn : BC → Bool
  /-- the kernel receives `s` as a `double*`: it may write the entries of the
  array, whose extent is fixed -/
  kernel_keeps_extent : ∀ navigationStep pCache kind s,
    (propagateWithJacobian navigationStep pCache kind s).2.2.length = s.length

/-- One recorded call of a collaborator, with the scalar arguments it was given
and, where it has one, the flag it returned. -/
inductive Call where
  | transformLocalToGlobal (useJacobian : Bool) (ok : Bool)
  | propagateWithJacobian (kind : Nat) (s : List ℚ) (ok : Bool)
  | newCrossPoint (r0 : List ℚ) (ok : Bool)
  | transformGlobalToLocal (useJacobian : Bool)
  | insideBounds (lPosition : ℚ × ℚ) (ok : Bool)
  | transformGlobalToCurvilinear (useJacobian : Bool)
  | newCovarianceMatrix
  deriving DecidableEq

/-- The kernel invocations of a call log: family code and encoding of each. -/
def kernelCalls : List Call → List (Nat × List ℚ)
  | [] => []
  | .propagateWithJacobian kind s _ :: rest => (kind, s) :: kernelCalls rest
  | _ :: rest => kernelCalls rest

/-- The calls of `transformGlobalToLocal` in a call log: the Jacobian flag `uJ`
of each. -/
def frameCalls : List Call → List Bool
  | [] => []
  | .transformGlobalToLocal uJ :: rest => uJ :: frameCalls rest
  | _ :: rest => frameCalls rest

/-- What a call of `propagateRungeKuttaT` leaves behind: the returned flag, the
cache, the collaborator calls made in program order, and the source line of the
`return` statement taken (16, 43, 54, 71, 78, 96, 98, 107, 133, 151 or 155). -/
structure Outcome (BC : Type) where
  /-- the returned flag -/
  result : Bool
  /-- the cache on return -/
  cache : PropagationCache BC
  /-- the collaborator calls made -/
  calls : List Call
  /-- the line of the `return` statement taken -/
  returnLine : Nat

/-- The placement dot product `d` of lines 27-29: translation times third
rotation column. -/
def planarOffset (sTransform : Nat → Nat → ℚ) : ℚ :=
  sTransform 0 3 * sTransform 0 2 + sTransform 1 3 * sTransform 1 2
    + sTransform 2 3 * sTransform 2 2

/-- The array `s[4]` of the planar branch (lines 27-40). -/
def planarEncoding (sTransform : Nat → Nat → ℚ) : List ℚ :=
  if planarOffset sTransform ≥ 0 then
    [sTransform 0 2, sTransform 1 2, sTransform 2 2, planarOffset sTransform]
  else
    [-sTransform 0 2, -sTransform 1 2, -sTransform 2 2, -planarOffset sTransform]

/-- The array `s[6]` of the line branch (lines 46-51). -/
def lineEncoding (sTransform : Nat → Nat → ℚ) : List ℚ :=
  [sTransform 0 3, sTransform 1 3, sTransform 2 3,
    sTransform 0 2, sTransform 1 2, sTransform 2 2]

/-- The array `s[9]` of the cylinder branch as initialised (lines 60-68). -/
def cylinderEncoding (sTransform : Nat → Nat → ℚ) (r direction : ℚ) : List ℚ :=
  [sTransform 0 3, sTransform 1 3, sTransform 2 3,
    sTransform 0 2, sTransform 1 2, sTransform 2 2, r, direction, 0]

/-- The array `s[9]` of the cone branch (lines 83-93), with `k = k * k + 1`. -/
def coneEncoding (sTransform : Nat → Nat → ℚ) (tanAlpha direction : ℚ) : List ℚ :=
  [sTransform 0 3, sTransform 1 3, sTransform 2 3,
    sTransform 0 2, sTransform 1 2, sTransform 2 2,
    tanAlpha * tanAlpha + 1, direction, 0]

/-- The compound assignment `P[i] *= p`. -/
def scaleEntry (P : Nat → ℚ) (i : Nat) (p : ℚ) : Nat → ℚ :=
  Function.update P i (P i * p)

/-- Lines 109-118: with `useJacobian` set, `p = 1 / pVector[6]` and the entries
35 to 40 of `pVector` are multiplied by `p`, one after the other. (In `ℚ` the
quotient `1 / 0` is `0`; the source divides floating-point numbers.) -/
def normalizeJacobian {BC : Type} (pCache : PropagationCache BC) : PropagationCache BC :=
  if pCache.useJacobian then
    let p := 1 / pCache.pVector 6
    { pCache with
      pVector :=
        scaleEntry (scaleEntry (scaleEntry (scaleEntry (scaleEntry (scaleEntry
          pCache.pVector 35 p) 36 p) 37 p) 38 p) 39 p) 40 p }
  else pCache

/-- Lines 18-98: the dispatch on the surface type, the encoding of the surface
and the kernel invocations. `Except.error o` is an early `return false` with
outcome `o`; `Except.ok (pCache, calls)` is control reaching line 100 with that
cache and call log. -/
def surfaceDispatch {T BC : Type} (E : RungeKuttaEngine T BC) (navigationStep : Int)
    (pCache : PropagationCache BC) (dSurface : Surface BC) (calls : List Call) :
    Except (Outcome BC) (PropagationCache BC × List Call) :=
  let sTransform := dSurface.transform
  let sType := dSurface.type
  if sType = .Plane ∨ sType = .Disc then
    -- (i) planar surface types
    let s := planarEncoding sTransform
    let k := E.propagateWithJacobian navigationStep pCache 1 s
    if k.1 = false then
      .error ⟨false, k.2.1, calls ++ [.propagateWithJacobian 1 s k.1], 43⟩
    else .ok (k.2.1, calls ++ [.propagateWithJacobian 1 s k.1])
  else if sType = .Line ∨ sType = .Perigee then
    -- (ii) line-type surfaces
    let s := lineEncoding sTransform
    let k := E.propagateWithJacobian navigationStep pCache 0 s
    if k.1 = false then
      .error ⟨false, k.2.1, calls ++ [.propagateWithJacobian 0 s k.1], 54⟩
    else .ok (k.2.1, calls ++ [.propagateWithJacobian 0 s k.1])
  else if sType = .Cylinder then
    -- (iii) cylinder surface
    let r0 := [pCache.pVector 0, pCache.pVector 1, pCache.pVector 2]
    let s := cylinderEncoding sTransform dSurface.r pCache.direction
    let k := E.propagateWithJacobian navigationStep pCache 2 s
    if k.1 = false then
      .error ⟨false, k.2.1, calls ++ [.propagateWithJacobian 2 s k.1], 71⟩
    else if dSurface.halfPhiSector < 3.1 then
      -- the right operand of `&&` is evaluated only here
      let cross := E.newCrossPoint dSurface r0 k.2.1.pVector
      if cross then
        let s2 := k.2.2.set 8 0
        let k2 := E.propagateWithJacobian navigationStep k.2.1 2 s2
        if k2.1 = false then
          .error ⟨false, k2.2.1,
            calls ++ [.propagateWithJacobian 2 s k.1, .newCrossPoint r0 cross,
              .propagateWithJacobian 2 s2 k2.1], 78⟩
        else
          .ok (k2.2.1,
            calls ++ [.propagateWithJacobian 2 s k.1, .newCrossPoint r0 cross,
              .propagateWithJacobian 2 s2 k2.1])
      else .ok (k.2.1, calls ++ [.propagateWithJacobian 2 s k.1, .newCrossPoint r0 cross])
    else .ok (k.2.1, calls ++ [.propagateWithJacobian 2 s k.1])
  else if sType = .Cone then
    -- (iv) cone surface
    let s := coneEncoding sTransform dSurface.tanAlpha pCache.direction
    let k := E.propagateWithJacobian navigationStep pCache 3 s
    if k.1 = false then
      .error ⟨false, k.2.1, calls ++ [.propagateWithJacobian 3 s k.1], 96⟩
    else .ok (k.2.1, calls ++ [.propagateWithJacobian 3 s k.1])
  else
    -- there was no surface that did fit
    .error ⟨false, pCache, calls, 98⟩

/-- The test of line 106: a direction is requested and the realized step has
the opposite sign. -/
def directionMismatch {BC : Type} (pCache : PropagationCache BC) : Prop :=
  pCache.direction ≠ 0 ∧ pCache.direction * pCache.step < 0

instance {BC : Type} (pCache : PropagationCache BC) : Decidable (directionMismatch pCache) :=
  inferInstanceAs (Decidable (_ ∧ _))

/-- Lines 120-121: the path limit forces curvilinear output. -/
def decideFrame {BC : Type} (pCache : PropagationCache BC) : PropagationCache BC :=
  if pCache.maxPathLimit then { pCache with returnCurvilinear := true } else pCache

/-- The flag `uJ` of lines 123-124. -/
def frameJacobian {BC : Type} (pCache : PropagationCache BC) : Bool :=
  if pCache.returnCurvilinear then false else pCache.useJacobian

/-- Lines 109-128: the cache after the Jacobian normalisation, the choice of the
output frame and the call of `transformGlobalToLocal`. -/
def localFrame {T BC : Type} (E : RungeKuttaEngine T BC) (dSurface : Surface BC)
    (pCache0 : PropagationCache BC) : PropagationCache BC :=
  let pCache2 := decideFrame (normalizeJacobian pCache0)
  let g := E.transformGlobalToLocal dSurface (frameJacobian pCache2)
    pCache2.pVector pCache2.parameters pCache2.jacobian
  { pCache2 with pVector := g.1, parameters := g.2.1, jacobian := g.2.2 }

/-- The position `lPosition` of line 132. -/
def localPosition {BC : Type} (pCache : PropagationCache BC) : ℚ × ℚ :=
  (pCache.parameters 0, pCache.parameters 1)

/-- The test of lines 130-133: the boundary check is on and the local position
is not inside the bounds of the surface. -/
def outOfBounds {T BC : Type} (E : RungeKuttaEngine T BC) (dSurface : Surface BC)
    (pCache3 : PropagationCache BC) : Prop :=
  E.boundaryCheckOn pCache3.boundaryCheck = true ∧
    dSurface.insideBounds (localPosition pCache3) pCache3.boundaryCheck = false

instance {T BC : Type} (E : RungeKuttaEngine T BC) (dSurface : Surface BC)
    (pCache3 : PropagationCache BC) : Decidable (outOfBounds E dSurface pCache3) :=
  inferInstanceAs (Decidable (_ ∧ _))

/-- Lines 136-139: the cache after the curvilinear conversion, which is made only
when `returnCurvilinear` is set. -/
def curvilinearFrame {T BC : Type} (E : RungeKuttaEngine T BC)
    (pCache3 : PropagationCache BC) : PropagationCache BC :=
  if pCache3.returnCurvilinear then
    let c := E.transformGlobalToCurvilinear pCache3.useJacobian
      pCache3.pVector pCache3.parameters pCache3.jacobian
    { pCache3 with pVector := c.1, parameters := c.2.1, jacobian := c.2.2 }
  else pCache3

/-- The matrix built at lines 143-144 from the Jacobian of the cache and the
covariance of the input parameters. -/
def transportedCovariance {T BC : Type} (E : RungeKuttaEngine T BC) (parametersT : T)
    (pCache4 : PropagationCache BC) : Nat → Nat → ℚ :=
  E.newCovarianceMatrix pCache4.jacobian (E.covariance parametersT)

/-- The test of lines 147-148 on the five leading diagonal entries. -/
def degenerate (cov : Nat → Nat → ℚ) : Prop :=
  cov 0 0 ≤ 0 ∨ cov 1 1 ≤ 0 ∨ cov 2 2 ≤ 0 ∨ cov 3 3 ≤ 0 ∨ cov 4 4 ≤ 0

instance (cov : Nat → Nat → ℚ) : Decidable (degenerate cov) :=
  inferInstanceAs (Decidable (_ ∨ _))

/-- Lines 105-155: direction check, Jacobian normalisation, choice of the output
frame, global-to-local conversion, boundary check, curvilinear conversion and
covariance transport, starting from the cache and call log at line 100. -/
def outputStage {T BC : Type} (E : RungeKuttaEngine T BC) (parametersT : T)
    (dSurface : Surface BC) (pCache0 : PropagationCache BC) (calls0 : List Call) :
    Outcome BC :=
  -- check if the direction solution was ok
  if directionMismatch pCache0 then
    ⟨false, pCache0, calls0, 107⟩
  else
    -- normalisation, output frame, from global to local
    let pCache3 := localFrame E dSurface pCache0
    let calls1 := calls0 ++
      [.transformGlobalToLocal (frameJacobian (decideFrame (normalizeJacobian pCache0)))]
    -- boundary check; `insideBounds` is called only when the directive is on
    let bcOn := E.boundaryCheckOn pCache3.boundaryCheck
    let inside := dSurface.insideBounds (localPosition pCache3) pCache3.boundaryCheck
    let calls2 :=
      if bcOn then calls1 ++ [.insideBounds (localPosition pCache3) inside] else calls1
    if outOfBounds E dSurface pCache3 then
      ⟨false, pCache3, calls2, 133⟩
    else
      -- transformation to curvilinear presentation
      let pCache4 := curvilinearFrame E pCache3
      let calls3 :=
        if pCache3.returnCurvilinear then
          calls2 ++ [.transformGlobalToCurvilinear pCache3.useJacobian]
        else calls2
      if pCache4.useJacobian then
        -- create a new covariance matrix using the utils
        let cov := transportedCovariance E parametersT pCache4
        let calls4 := calls3 ++ [.newCovarianceMatrix]
        -- check for positive finite elements
        if degenerate cov then
          ⟨false, { pCache4 with covariance := none }, calls4, 151⟩
        else
          ⟨true, { pCache4 with covariance := some cov }, calls4, 155⟩
      else
        -- everything worked
        ⟨true, pCache4, calls3, 155⟩

/-- The cache after the input conversion of lines 13-16: only `pVector` has been
written. -/
def afterConversion {T BC : Type} (E : RungeKuttaEngine T BC)
    (pCache : PropagationCache BC) (parametersT : T) : PropagationCache BC :=
  { pCache with
    pVector := (E.transformLocalToGlobal pCache.useJacobian parametersT pCache.pVector).2 }

/-- The member function `RungeKuttaEngine::propagateRungeKuttaT` (lines 1-156).
Of `eCell` only `navigationStep` is used, which is handed on to the kernel; the
logging macros have no effect on the result. -/
def RungeKuttaEngine.propagateRungeKuttaT {T BC : Type} (E : RungeKuttaEngine T BC)
    (navigationStep : Int) (pCache : PropagationCache BC) (parametersT : T)
    (dSurface : Surface BC) : Outcome BC :=
  let ok := (E.transformLocalToGlobal pCache.useJacobian parametersT pCache.pVector).1
  let calls := [Call.transformLocalToGlobal pCache.useJacobian ok]
  -- bail out if you can't transform into global frame
  if ok = false then
    ⟨false, afterConversion E pCache parametersT, calls, 16⟩
  else
    match surfaceDispatch E navigationStep (afterConversion E pCache parametersT)
        dSurface calls with
    | .error o => o
    | .ok (pCache0, calls0) => outputStage E parametersT dSurface pCache0 calls0

/-- The first kernel invocation of the cylinder branch (line 70), on the cache
`pCache` left by the input conversion. -/
def cylinderFirst {T BC : Type} (E : RungeKuttaEngine T BC) (navigationStep : Int)
    (pCache : PropagationCache BC) (dSurface : Surface BC) :
    Bool × PropagationCache BC × List ℚ :=
  E.propagateWithJacobian navigationStep pCache 2
    (cylinderEncoding dSurface.transform dSurface.r pCache.direction)

/-- The call `newCrossPoint(*cyl, r0, pCache.pVector)` of line 74: `r0` is the
position held by `pVector` before the first kernel invocation, the last argument
the `pVector` that invocation left. -/
def cylinderCross {T BC : Type} (E : RungeKuttaEngine T BC) (navigationStep : Int)
    (pCache : PropagationCache BC) (dSurface : Surface BC) : Bool :=
  E.newCrossPoint dSurface [pCache.pVector 0, pCache.pVector 1, pCache.pVector 2]
    (cylinderFirst E navigationStep pCache dSurface).2.1.pVector

/-- The array `s` handed to the second kernel invocation (lines 75-77): what the
first invocation left, with `s[8] = 0.`. -/
def cylinderRetryEncoding {T BC : Type} (E : RungeKuttaEngine T BC) (navigationStep : Int)
    (pCache : PropagationCache BC) (dSurface : Surface BC) : List ℚ :=
  (cylinderFirst E navigationStep pCache dSurface).2.2.set 8 0

/-- The second kernel invocation of the cylinder branch (line 77). -/
def cylinderSecond {T BC : Type} (E : RungeKuttaEngine T BC) (navigationStep : Int)
    (pCache : PropagationCache BC) (dSurface : Surface BC) :
    Bool × PropagationCache BC × List ℚ :=
  E.propagateWithJacobian navigationStep (cylinderFirst E navigationStep pCache dSurface).2.1 2
    (cylinderRetryEncoding E navigationStep pCache dSurface)

/-- The call log carried by the result of a stage, on either exit. -/
def stageCalls {BC : Type} :
    Except (Outcome BC) (PropagationCache BC × List Call) → List Call
  | .error o => o.calls
  | .ok (_, calls) => calls

/-! ### Concrete collaborators used in instances -/

/-- A placement with translation `(1, 2, 3)` and third rotation column `(0, 0, 1)`. -/
def demoTransform : Nat → Nat → ℚ := fun i j =>
  if j = 3 then (if i = 0 then 1 else if i = 1 then 2 else if i = 2 then 3 else 1)
  else if i = j then 1 else 0

/-- A placement with translation `(1, 2, -3)` and third rotation column
`(0, 0, 1)`: the translation points against the normal. -/
def flippedTransform : Nat → Nat → ℚ := fun i j =>
  if j = 3 then (if i = 0 then 1 else if i = 1 then 2 else if i = 2 then -3 else 1)
  else if i = j then 1 else 0

/-- A surface of the given type and half sector, of radius 4 and cone tangent 2,
whose bounds are the square of half length 1. -/
def demoSurface (type : SurfaceType) (halfPhiSector : ℚ) : Surface Bool where
  type := type
  transform := demoTransform
  r := 4
  halfPhiSector := halfPhiSector
  tanAlpha := 2
  insideBounds := fun pos _ => decide (|pos.1| ≤ 1 ∧ |pos.2| ≤ 1)

/-- A cache with null covariance and constant arrays. -/
def demoCache (direction : ℚ) (useJacobian maxPathLimit returnCurvilinear boundaryCheck : Bool) :
    PropagationCache Bool where
  pVector := fun _ => 2
  parameters := fun _ => 9
  jacobian := fun _ => 1
  covariance := none
  step := 0
  direction := direction
  useJacobian := useJacobian
  maxPathLimit := maxPathLimit
  returnCurvilinear := returnCurvilinear
  boundaryCheck := boundaryCheck

/-- Collaborators with scripted answers. The kernel reports `kernelOk`, sets the
step to `kernelStep` and, for a cylinder, writes `1` into the selector `s[8]`;
the local position after the global-to-local conversion is `(0, 0)`, after the
curvilinear conversion `(5, 5)`; the transported covariance is `variance` times
the input covariance, which is the unit matrix. -/
def demoEngine (convOk kernelOk : Bool) (kernelStep : ℚ) (cross : Bool) (variance : ℚ) :
    RungeKuttaEngine Unit Bool where
  transformLocalToGlobal := fun _ _ P => (convOk, P)
  propagateWithJacobian := fun _ c kind s =>
    (kernelOk, { c with step := kernelStep }, if kind = 2 then s.set 8 1 else s)
  newCrossPoint := fun _ _ _ => cross
  transformGlobalToLocal := fun _ _ P _ J => (P, fun _ => 0, J)
  transformGlobalToCurvilinear := fun _ P _ J => (P, fun _ => 5, J)
  newCovarianceMatrix := fun _ C i j => variance * C i j
  covariance := fun _ i j => if i = j then 1 else 0
  boundaryCheckOn := fun b => b
  kernel_keeps_extent := by
    intro _ _ kind s
    by_cases h : kind = 2 <;> simp [h]

/-! ## Rectangle bounds (`RectangleBounds.cpp`) -/

/-- The values held by a `RectangleBounds`: the entries `bv_halfX` and `bv_halfY`
of `m_boundValues`, which the constructor of lines 24-30 sets to its arguments
`halex` and `haley` as they come. `K` is the type of numbers. -/
structure RectangleBounds (K : Type) where
  /-- the entry `m_boundValues.at(bv_halfX)` -/
  halfX : K
  /-- the entry `m_boundValues.at(bv_halfY)` -/
  halfY : K

/-- The member function `RectangleBounds::minDistance` (lines 60-73), over an
ordered field `K` with the square root function `sqrt` it is to use: over the
real numbers that function is `Real.sqrt`. -/
def RectangleBounds.minDistance {K : Type} [LinearOrderedField K] (sqrt : K → K)
    (b : RectangleBounds K) (pos : K × K) : K :=
  let dx := |pos.1| - b.halfX
  let dy := |pos.2| - b.halfY
  if dx ≤ 0 ∨ dy ≤ 0 then
    if dx > dy then dx else dy
  else
    sqrt (dx * dx + dy * dy)

end Acts

/-! # Theorems -/

namespace Acts

namespace detail

section AbortList

variable {S : Schema} {Cache : Type}

theorem condition_caller_calls (c : Condition S Cache) (r : Result S) (cache : Cache) :
    (condition_caller.check c r cache).calls =
      [⟨c, expectedSlice c r, cache, (condition_caller.check c r cache).abort⟩] := by
  cases c <;> rfl

/-- The recursive equation of `check` holds for every non-empty list: on a
one-element list the single-condition specialisation computes the same as the
recursive one followed by the empty one. -/
theorem check_cons (first : Condition S Cache) (others : List (Condition S Cache))
    (r : Result S) (cache : Cache) :
    abort_list_impl.check (first :: others) r cache =
      if (condition_caller.check first r cache).abort then
        ⟨true, (condition_caller.check first r cache).cache,
          (condition_caller.check first r cache).calls⟩
      else
        ⟨(abort_list_impl.check others r (condition_caller.check first r cache).cache).abort,
          (abort_list_impl.check others r (condition_caller.check first r cache).cache).cache,
          (condition_caller.check first r cache).calls ++
            (abort_list_impl.check others r (condition_caller.check first r cache).cache).calls⟩ := by
  cases others with
  | nil =>
    simp only [abort_list_impl.check]
    rcases h : condition_caller.check first r cache with ⟨a, k, l⟩
    cases a <;> simp
  | cons second rest => simp only [abort_list_impl.check]

theorem check_calls_take (conds : List (Condition S Cache)) (r : Result S) (cache : Cache) :
    (abort_list_impl.check conds r cache).calls.map (fun e => e.condition) =
      conds.take (abort_list_impl.check conds r cache).calls.length := by
  induction conds generalizing cache with
  | nil => simp [abort_list_impl.check]
  | cons first others ih =>
    rw [check_cons]
    split
    · simp [condition_caller_calls]
    · simp [condition_caller_calls, ih, Nat.add_comm 1, List.take_succ_cons]

theorem check_calls_threaded (conds : List (Condition S Cache)) (r : Result S) (cache : Cache) :
    Threaded r cache (abort_list_impl.check conds r cache).calls := by
  induction conds generalizing cache with
  | nil => simp [abort_list_impl.check, Threaded]
  | cons first others ih =>
    rw [check_cons]
    split
    · simp [condition_caller_calls, Threaded]
    · simp [condition_caller_calls, Threaded, ih]

theorem check_calls_returned (conds : List (Condition S Cache)) (r : Result S) (cache : Cache) :
    ∀ e ∈ (abort_list_impl.check conds r cache).calls,
      e.returned = (condition_caller.check e.condition r e.cache).abort ∧
      e.slice = expectedSlice e.condition r := by
  induction conds generalizing cache with
  | nil => simp [abort_list_impl.check]
  | cons first others ih =>
    rw [check_cons]
    split
    · simp [condition_caller_calls]
    · simp only [condition_caller_calls, List.singleton_append, List.mem_cons]
      rintro e (rfl | he)
      · simp
      · exact ih _ e he

theorem check_abort_true (conds : List (Condition S Cache)) (r : Result S) (cache : Cache)
    (h : (abort_list_impl.check conds r cache).abort = true) :
    ∃ e, (abort_list_impl.check conds r cache).calls.getLast? = some e ∧ e.returned = true := by
  induction conds generalizing cache with
  | nil => simp [abort_list_impl.check] at h
  | cons first others ih =>
    rw [check_cons] at h ⊢
    split
    · rename_i hd
      simp [condition_caller_calls, hd]
    · rename_i hd
      simp only [hd, Bool.false_eq_true, if_false] at h
      obtain ⟨e, he, het⟩ := ih _ h
      refine ⟨e, ?_, het⟩
      simp only [condition_caller_calls, List.singleton_append]
      cases hc : (abort_list_impl.check others r (condition_caller.check first r cache).cache).calls with
      | nil => simp [hc] at he
      | cons a l => rw [hc] at he; simpa [List.getLast?_cons_cons] using he

theorem check_abort_false (conds : List (Condition S Cache)) (r : Result S) (cache : Cache)
    (h : (abort_list_impl.check conds r cache).abort = false) :
    (abort_list_impl.check conds r cache).calls.length = conds.length ∧
      ∀ e ∈ (abort_list_impl.check conds r cache).calls, e.returned = false := by
  induction conds generalizing cache with
  | nil => simp [abort_list_impl.check]
  | cons first others ih =>
    rw [check_cons] at h ⊢
    split
    · rename_i hd
      simp [hd] at h
    · rename_i hd
      simp only [hd, Bool.false_eq_true, if_false] at h
      obtain ⟨hl, hall⟩ := ih _ h
      simp only [Bool.not_eq_true] at hd
      refine ⟨by simp [condition_caller_calls, hl, Nat.add_comm], ?_⟩
      simp only [condition_caller_calls, List.singleton_append, List.mem_cons]
      rintro e (rfl | he)
      · simpa using hd
      · exact hall e he

theorem check_calls_dropLast (conds : List (Condition S Cache)) (r : Result S) (cache : Cache) :
    ∀ e ∈ (abort_list_impl.check conds r cache).calls.dropLast, e.returned = false := by
  induction conds generalizing cache with
  | nil => simp [abort_list_impl.check]
  | cons first others ih =>
    rw [check_cons]
    split
    · simp [condition_caller_calls]
    · rename_i hd
      simp only [Bool.not_eq_true] at hd
      simp only [condition_caller_calls, List.singleton_append]
      cases hc : (abort_list_impl.check others r (condition_caller.check first r cache).cache).calls with
      | nil => simp
      | cons a l =>
        intro e he
        rw [List.dropLast_cons₂, List.mem_cons] at he
        rcases he with rfl | he
        · simpa using hd
        · exact ih _ e (by rw [hc]; exact he)

theorem check_pure (conds : List (Condition S Cache)) (r : Result S) (cache : Cache)
    (hpure : ∀ c ∈ conds, ∀ k, (condition_caller.check c r k).cache = k) :
    (abort_list_impl.check conds r cache).abort =
        conds.any (fun c => (condition_caller.check c r cache).abort) ∧
      (abort_list_impl.check conds r cache).cache = cache := by
  induction conds generalizing cache with
  | nil => simp [abort_list_impl.check]
  | cons first others ih =>
    have h1 := hpure first (List.mem_cons_self _ _) cache
    have h2 := ih cache (fun c hc k => hpure c (List.mem_cons_of_mem _ hc) k)
    rw [check_cons]
    split
    · rename_i hd
      simp [hd, h1]
    · rename_i hd
      simp only [Bool.not_eq_true] at hd
      simp [hd, h1, h2]

/-- C1: `abort_list_impl::check` calls the conditions in declaration order and
stops at the first one that returns `true`. For every list, result bundle and
cache: the conditions called are a prefix of the list, in order; the calls are
chained through the cache; each recorded verdict is what the condition returns
on the cache it was called on; every call but the last returned `false`; the
result is `true` exactly when there is a last call and it returned `true`; and
when the result is `false` the whole list was called and all returned `false`.
For the list false, true, false exactly the first two are called (the cache
shows tags 1 and 2 only) and the result is `true`. -/
theorem C1_check_short_circuit {S : Schema} {Cache : Type}
    (conds : List (Condition S Cache)) (r : Result S) (cache : Cache) :
    ((abort_list_impl.check conds r cache).calls.map (fun e => e.condition) =
        conds.take (abort_list_impl.check conds r cache).calls.length) ∧
    Threaded r cache (abort_list_impl.check conds r cache).calls ∧
    (∀ e ∈ (abort_list_impl.check conds r cache).calls,
        e.returned = (condition_caller.check e.condition r e.cache).abort) ∧
    (∀ e ∈ (abort_list_impl.check conds r cache).calls.dropLast, e.returned = false) ∧
    ((abort_list_impl.check conds r cache).abort = true ↔
        ∃ e, (abort_list_impl.check conds r cache).calls.getLast? = some e ∧
          e.returned = true) ∧
    ((abort_list_impl.check conds r cache).abort = false →
        (abort_list_impl.check conds r cache).calls.length = conds.length ∧
        ∀ e ∈ (abort_list_impl.check conds r cache).calls, e.returned = false) ∧
    ((abort_list_impl.check [probe 1 false, probe 2 true, probe 3 false] demoResult []).abort
        = true ∧
      (abort_list_impl.check [probe 1 false, probe 2 true, probe 3 false] demoResult []).calls.map
          (fun e => e.condition) = [probe 1 false, probe 2 true] ∧
      (abort_list_impl.check [probe 1 false, probe 2 true, probe 3 false] demoResult []).calls.map
          (fun e => e.returned) = [false, true] ∧
      (abort_list_impl.check [probe 1 false, probe 2 true, probe 3 false] demoResult []).cache
        = [1, 2]) := by
  refine ⟨check_calls_take conds r cache, check_calls_threaded conds r cache,
    fun e he => (check_calls_returned conds r cache e he).1,
    check_calls_dropLast conds r cache, ⟨check_abort_true conds r cache, ?_⟩,
    check_abort_false conds r cache, rfl, rfl, rfl, rfl⟩
  rintro ⟨e, he, het⟩
  cases hab : (abort_list_impl.check conds r cache).abort with
  | true => rfl
  | false =>
    have hmem : e ∈ (abort_list_impl.check conds r cache).calls :=
      List.mem_of_getLast?_eq_some he
    rw [(check_abort_false conds r cache hab).2 e hmem] at het
    exact absurd het (by decide)

/-- Witness of C1: a three-condition list on which the result is `false`, so that
all three conditions are called. -/
theorem C1_check_short_circuit_witness :
    (abort_list_impl.check [probe 1 false, probe 2 false, probe 3 false] demoResult []).abort
        = false ∧
      (abort_list_impl.check [probe 1 false, probe 2 false, probe 3 false]
        demoResult []).calls.length = 3 ∧
      ∀ e ∈ (abort_list_impl.check [probe 1 false, probe 2 false, probe 3 false]
        demoResult []).calls, e.returned = false :=
  ⟨rfl, (C1_check_short_circuit [probe 1 false, probe 2 false, probe 3 false]
    demoResult []).2.2.2.2.2.1 rfl⟩

/-- C2: on the empty condition list `abort_list_impl<>::check` returns `false`,
leaves the cache unchanged and calls nothing, whatever the cache and the result
bundle are. -/
theorem C2_check_empty {S : Schema} {Cache : Type} (r : Result S) (cache : Cache) :
    (abort_list_impl.check ([] : List (Condition S Cache)) r cache).abort = false ∧
    (abort_list_impl.check ([] : List (Condition S Cache)) r cache).cache = cache ∧
    (abort_list_impl.check ([] : List (Condition S Cache)) r cache).calls = [] :=
  ⟨rfl, rfl, rfl⟩

/-- C3: when no condition of the list modifies the cache, `abort_list_impl::check`
returns the logical OR of the conditions evaluated on the given cache and result
bundle (`List.any`), for lists of every length, and the cache is unchanged. -/
theorem C3_check_eq_any {S : Schema} {Cache : Type}
    (conds : List (Condition S Cache)) (r : Result S) (cache : Cache)
    (hpure : ∀ c ∈ conds, ∀ k, (condition_caller.check c r k).cache = k) :
    (abort_list_impl.check conds r cache).abort =
        conds.any (fun c => (condition_caller.check c r cache).abort) ∧
      (abort_list_impl.check conds r cache).cache = cache :=
  check_pure conds r cache hpure

/-- Witness of C3: three cache-preserving conditions, the second of which holds. -/
theorem C3_check_eq_any_witness :
    (∀ c ∈ [longerThan 3, sliceAbove 5, longerThan 0], ∀ k : List Nat,
        (condition_caller.check c demoResult k).cache = k) ∧
      ((abort_list_impl.check [longerThan 3, sliceAbove 5, longerThan 0] demoResult []).abort =
          [longerThan 3, sliceAbove 5, longerThan 0].any
            (fun c => (condition_caller.check c demoResult []).abort) ∧
        (abort_list_impl.check [longerThan 3, sliceAbove 5, longerThan 0] demoResult []).cache
          = []) :=
  have hpure : ∀ c ∈ [longerThan 3, sliceAbove 5, longerThan 0], ∀ k : List Nat,
      (condition_caller.check c demoResult k).cache = k := by
    intro c hc k
    simp only [List.mem_cons, List.mem_singleton, List.not_mem_nil, or_false] at hc
    rcases hc with rfl | rfl | rfl <;> rfl
  ⟨hpure, C3_check_eq_any [longerThan 3, sliceAbove 5, longerThan 0] demoResult [] hpure⟩

/-- C4: capability resolution in `condition_caller`. A condition whose
`condition_uses_result_type` is `false` is called with the cache only: no slice
is handed over, the outcome is that of `call cache`, and it is the same for
every result bundle. A condition whose capability is `true` is called exactly
once, with the slice `r.get<result_type_t<observer_type>>()` of its own declared
observer and the cache, and with no other slice. The same holds for every call
made by `abort_list_impl::check` on any list. -/
theorem C4_condition_caller_dispatch {S : Schema} {Cache : Type}
    (c : Condition S Cache) (r : Result S) (cache : Cache) :
    (condition_uses_result_type c = false →
      ∃ call, c = .cacheOnly call ∧
        ((condition_caller.check c r cache).abort, (condition_caller.check c r cache).cache)
          = call cache ∧
        (condition_caller.check c r cache).calls = [⟨c, none, cache, (call cache).1⟩] ∧
        ∀ r2 : Result S, condition_caller.check c r2 cache = condition_caller.check c r cache) ∧
    (condition_uses_result_type c = true →
      ∃ o call, c = .usingResult o call ∧
        ((condition_caller.check c r cache).abort, (condition_caller.check c r cache).cache)
          = call (r (S.result_type_t o)) cache ∧
        (condition_caller.check c r cache).calls =
          [⟨c, some ⟨S.result_type_t o, r (S.result_type_t o)⟩, cache,
            (call (r (S.result_type_t o)) cache).1⟩]) ∧
    (∀ (conds : List (Condition S Cache)),
      ∀ e ∈ (abort_list_impl.check conds r cache).calls,
        (condition_uses_result_type e.condition = false → e.slice = none) ∧
        (∀ o call, e.condition = .usingResult o call →
          e.slice = some ⟨S.result_type_t o, r (S.result_type_t o)⟩)) := by
  refine ⟨?_, ?_, ?_⟩
  · intro h
    cases c with
    | cacheOnly call => exact ⟨call, rfl, rfl, rfl, fun _ => rfl⟩
    | usingResult o call => simp [condition_uses_result_type] at h
  · intro h
    cases c with
    | cacheOnly call => simp [condition_uses_result_type] at h
    | usingResult o call => exact ⟨o, call, rfl, rfl, rfl⟩
  · intro conds e he
    have hs := (check_calls_returned conds r cache e he).2
    refine ⟨?_, ?_⟩
    · intro h
      cases hc : e.condition with
      | cacheOnly call => rw [hs, hc]; rfl
      | usingResult o call => rw [hc] at h; simp [condition_uses_result_type] at h
    · intro o call hc
      rw [hs, hc]
      rfl

/-- Witness of C4: with a non-empty bundle (number 7, flag `false`) the
result-consuming condition `sliceAbove 5` receives the numeric slice 7, and the
cache-only condition `probe 1 true` receives no slice. -/
theorem C4_condition_caller_dispatch_witness :
    (condition_uses_result_type (probe 1 true) = false ∧
      ∃ call, probe 1 true = .cacheOnly call ∧
        ((condition_caller.check (probe 1 true) demoResult []).abort,
          (condition_caller.check (probe 1 true) demoResult []).cache) = call [] ∧
        (condition_caller.check (probe 1 true) demoResult []).calls
          = [⟨probe 1 true, none, [], (call []).1⟩] ∧
        ∀ r2 : Result demoSchema,
          condition_caller.check (probe 1 true) r2 [] =
            condition_caller.check (probe 1 true) demoResult []) ∧
    (condition_uses_result_type (sliceAbove 5) = true ∧
      ∃ o call, sliceAbove 5 = .usingResult o call ∧
        ((condition_caller.check (sliceAbove 5) demoResult []).abort,
          (condition_caller.check (sliceAbove 5) demoResult []).cache)
          = call (demoResult (demoSchema.result_type_t o)) [] ∧
        (condition_caller.check (sliceAbove 5) demoResult []).calls =
          [⟨sliceAbove 5,
            some ⟨demoSchema.result_type_t o, demoResult (demoSchema.result_type_t o)⟩, [],
            (call (demoResult (demoSchema.result_type_t o)) []).1⟩]) :=
  ⟨⟨rfl, (C4_condition_caller_dispatch (probe 1 true) demoResult []).1 rfl⟩,
    ⟨rfl, (C4_condition_caller_dispatch (sliceAbove 5) demoResult []).2.1 rfl⟩⟩

end AbortList

end detail

end Acts

namespace Acts

open RungeKuttaEngine

section Propagation

variable {T BC : Type}

theorem kernelCalls_append (a b : List Call) :
    kernelCalls (a ++ b) = kernelCalls a ++ kernelCalls b := by
  induction a with
  | nil => rfl
  | cons x xs ih => cases x <;> simp [kernelCalls, ih]

theorem outputStage_kernelCalls (E : RungeKuttaEngine T BC) (parametersT : T)
    (dSurface : Surface BC) (pCache0 : PropagationCache BC) (calls0 : List Call) :
    kernelCalls (outputStage E parametersT dSurface pCache0 calls0).calls = kernelCalls calls0 := by
  unfold outputStage
  simp only []
  split_ifs <;> simp [kernelCalls_append, kernelCalls]

theorem propagate_conversion_failed (E : RungeKuttaEngine T BC) (navigationStep : Int)
    (pCache : PropagationCache BC) (parametersT : T) (dSurface : Surface BC)
    (hconv : (E.transformLocalToGlobal pCache.useJacobian parametersT pCache.pVector).1 = false) :
    E.propagateRungeKuttaT navigationStep pCache parametersT dSurface =
      ⟨false, afterConversion E pCache parametersT,
        [Call.transformLocalToGlobal pCache.useJacobian false], 16⟩ := by
  simp [propagateRungeKuttaT, hconv]

theorem propagate_of_ok (E : RungeKuttaEngine T BC) (navigationStep : Int)
    (pCache : PropagationCache BC) (parametersT : T) (dSurface : Surface BC)
    (pCache0 : PropagationCache BC) (calls0 : List Call)
    (hconv : (E.transformLocalToGlobal pCache.useJacobian parametersT pCache.pVector).1 = true)
    (hk : surfaceDispatch E navigationStep (afterConversion E pCache parametersT) dSurface
      [Call.transformLocalToGlobal pCache.useJacobian true] = .ok (pCache0, calls0)) :
    E.propagateRungeKuttaT navigationStep pCache parametersT dSurface =
      outputStage E parametersT dSurface pCache0 calls0 := by
  simp [propagateRungeKuttaT, hconv, hk]

theorem propagate_of_error (E : RungeKuttaEngine T BC) (navigationStep : Int)
    (pCache : PropagationCache BC) (parametersT : T) (dSurface : Surface BC)
    (o : Outcome BC)
    (hconv : (E.transformLocalToGlobal pCache.useJacobian parametersT pCache.pVector).1 = true)
    (hk : surfaceDispatch E navigationStep (afterConversion E pCache parametersT) dSurface
      [Call.transformLocalToGlobal pCache.useJacobian true] = .error o) :
    E.propagateRungeKuttaT navigationStep pCache parametersT dSurface = o := by
  simp [propagateRungeKuttaT, hconv, hk]

theorem propagate_kernelCalls (E : RungeKuttaEngine T BC) (navigationStep : Int)
    (pCache : PropagationCache BC) (parametersT : T) (dSurface : Surface BC)
    (hconv : (E.transformLocalToGlobal pCache.useJacobian parametersT pCache.pVector).1 = true) :
    kernelCalls (E.propagateRungeKuttaT navigationStep pCache parametersT dSurface).calls =
      kernelCalls (stageCalls (surfaceDispatch E navigationStep
        (afterConversion E pCache parametersT) dSurface
        [Call.transformLocalToGlobal pCache.useJacobian true])) := by
  cases hk : surfaceDispatch E navigationStep (afterConversion E pCache parametersT) dSurface
      [Call.transformLocalToGlobal pCache.useJacobian true] with
  | error o => rw [propagate_of_error E navigationStep pCache parametersT dSurface o hconv hk]; rfl
  | ok x =>
    obtain ⟨c, calls⟩ := x
    rw [propagate_of_ok E navigationStep pCache parametersT dSurface c calls hconv hk,
      outputStage_kernelCalls]
    rfl

/-- The cylinder branch of `surfaceDispatch`, spelled with the named invocations. -/
theorem surfaceDispatch_cylinder (E : RungeKuttaEngine T BC) (navigationStep : Int)
    (pCache : PropagationCache BC) (dSurface : Surface BC) (calls : List Call)
    (hcyl : dSurface.type = .Cylinder) :
    surfaceDispatch E navigationStep pCache dSurface calls =
      if (cylinderFirst E navigationStep pCache dSurface).1 = false then
        .error ⟨false, (cylinderFirst E navigationStep pCache dSurface).2.1,
          calls ++ [.propagateWithJacobian 2
            (cylinderEncoding dSurface.transform dSurface.r pCache.direction) false], 71⟩
      else if dSurface.halfPhiSector < 3.1 then
        if cylinderCross E navigationStep pCache dSurface = true then
          if (cylinderSecond E navigationStep pCache dSurface).1 = false then
            .error ⟨false, (cylinderSecond E navigationStep pCache dSurface).2.1,
              calls ++ [.propagateWithJacobian 2
                  (cylinderEncoding dSurface.transform dSurface.r pCache.direction) true,
                .newCrossPoint [pCache.pVector 0, pCache.pVector 1, pCache.pVector 2] true,
                .propagateWithJacobian 2
                  (cylinderRetryEncoding E navigationStep pCache dSurface) false], 78⟩
          else
            .ok ((cylinderSecond E navigationStep pCache dSurface).2.1,
              calls ++ [.propagateWithJacobian 2
                  (cylinderEncoding dSurface.transform dSurface.r pCache.direction) true,
                .newCrossPoint [pCache.pVector 0, pCache.pVector 1, pCache.pVector 2] true,
                .propagateWithJacobian 2
                  (cylinderRetryEncoding E navigationStep pCache dSurface) true])
        else
          .ok ((cylinderFirst E navigationStep pCache dSurface).2.1,
            calls ++ [.propagateWithJacobian 2
                (cylinderEncoding dSurface.transform dSurface.r pCache.direction) true,
              .newCrossPoint [pCache.pVector 0, pCache.pVector 1, pCache.pVector 2] false])
      else
        .ok ((cylinderFirst E navigationStep pCache dSurface).2.1,
          calls ++ [.propagateWithJacobian 2
            (cylinderEncoding dSurface.transform dSurface.r pCache.direction) true]) := by
  unfold surfaceDispatch cylinderSecond cylinderRetryEncoding cylinderCross cylinderFirst
  simp only [hcyl]
  split_ifs <;> simp_all

theorem propagate_cylinder_kernelCalls (E : RungeKuttaEngine T BC) (navigationStep : Int)
    (pCache : PropagationCache BC) (parametersT : T) (dSurface : Surface BC)
    (hconv : (E.transformLocalToGlobal pCache.useJacobian parametersT pCache.pVector).1 = true)
    (hcyl : dSurface.type = .Cylinder) :
    kernelCalls (E.propagateRungeKuttaT navigationStep pCache parametersT dSurface).calls =
      if (cylinderFirst E navigationStep (afterConversion E pCache parametersT) dSurface).1 = true
          ∧ dSurface.halfPhiSector < 3.1
          ∧ cylinderCross E navigationStep (afterConversion E pCache parametersT) dSurface = true
      then
        [(2, cylinderEncoding dSurface.transform dSurface.r pCache.direction),
          (2, cylinderRetryEncoding E navigationStep (afterConversion E pCache parametersT)
            dSurface)]
      else [(2, cylinderEncoding dSurface.transform dSurface.r pCache.direction)] := by
  rw [propagate_kernelCalls E navigationStep pCache parametersT dSurface hconv,
    surfaceDispatch_cylinder E navigationStep _ dSurface _ hcyl]
  have hdir : (afterConversion E pCache parametersT).direction = pCache.direction := rfl
  rw [hdir]
  split_ifs <;> simp_all [stageCalls, kernelCalls]

/-- C5 (as the code has it): on a Cylinder destination whose conversion and first
kernel invocation succeed and for which the retry condition holds (half sector
below 3.1 and `newCrossPoint` true), the kernel is invoked twice with family
code 2; the first encoding carries the default selector `s[8] = 0`; the second
encoding is the array the first invocation left, with the selector reset to the
same default `0` (not to a different value), every other entry being as the
first invocation left it. -/
theorem C5_cylinder_retry_resets_selector {T BC : Type} (E : RungeKuttaEngine T BC)
    (navigationStep : Int) (pCache : PropagationCache BC) (parametersT : T)
    (dSurface : Surface BC)
    (hconv : (E.transformLocalToGlobal pCache.useJacobian parametersT pCache.pVector).1 = true)
    (hcyl : dSurface.type = .Cylinder)
    (hfirst :
      (cylinderFirst E navigationStep (afterConversion E pCache parametersT) dSurface).1 = true)
    (hsector : dSurface.halfPhiSector < 3.1)
    (hcross :
      cylinderCross E navigationStep (afterConversion E pCache parametersT) dSurface = true) :
    kernelCalls (E.propagateRungeKuttaT navigationStep pCache parametersT dSurface).calls =
        [(2, cylinderEncoding dSurface.transform dSurface.r pCache.direction),
          (2, cylinderRetryEncoding E navigationStep (afterConversion E pCache parametersT)
            dSurface)] ∧
      (cylinderEncoding dSurface.transform dSurface.r pCache.direction)[8]? = some 0 ∧
      (cylinderRetryEncoding E navigationStep (afterConversion E pCache parametersT)
        dSurface)[8]? = some 0 ∧
      ∀ i, i ≠ 8 →
        (cylinderRetryEncoding E navigationStep (afterConversion E pCache parametersT)
          dSurface)[i]? =
        (cylinderFirst E navigationStep (afterConversion E pCache parametersT)
          dSurface).2.2[i]? := by
  refine ⟨?_, rfl, ?_, ?_⟩
  · rw [propagate_cylinder_kernelCalls E navigationStep pCache parametersT dSurface hconv hcyl,
      if_pos ⟨hfirst, hsector, hcross⟩]
  · unfold cylinderRetryEncoding
    apply List.getElem?_set_self
    unfold cylinderFirst
    rw [E.kernel_keeps_extent]
    simp [cylinderEncoding]
  · intro i hi
    unfold cylinderRetryEncoding
    exact List.getElem?_set_ne (Ne.symm hi)

/-- Witness of C5: a cylinder of half sector 1 with a kernel that succeeds and
moves the selector to 1, and a second crossing point. -/
theorem C5_cylinder_retry_resets_selector_witness :
    ((demoEngine true true 1 true 1).transformLocalToGlobal
        (demoCache 1 false false false true).useJacobian ()
        (demoCache 1 false false false true).pVector).1 = true ∧
    (demoSurface .Cylinder 1).type = .Cylinder ∧
    (cylinderFirst (demoEngine true true 1 true 1) 0
      (afterConversion (demoEngine true true 1 true 1) (demoCache 1 false false false true) ())
      (demoSurface .Cylinder 1)).1 = true ∧
    (demoSurface .Cylinder 1).halfPhiSector < 3.1 ∧
    cylinderCross (demoEngine true true 1 true 1) 0
      (afterConversion (demoEngine true true 1 true 1) (demoCache 1 false false false true) ())
      (demoSurface .Cylinder 1) = true ∧
    (kernelCalls ((demoEngine true true 1 true 1).propagateRungeKuttaT 0
        (demoCache 1 false false false true) () (demoSurface .Cylinder 1)).calls =
        [(2, cylinderEncoding (demoSurface .Cylinder 1).transform (demoSurface .Cylinder 1).r
            (demoCache 1 false false false true).direction),
          (2, cylinderRetryEncoding (demoEngine true true 1 true 1) 0
            (afterConversion (demoEngine true true 1 true 1)
              (demoCache 1 false false false true) ())
            (demoSurface .Cylinder 1))] ∧
      (cylinderEncoding (demoSurface .Cylinder 1).transform (demoSurface .Cylinder 1).r
        (demoCache 1 false false false true).direction)[8]? = some 0 ∧
      (cylinderRetryEncoding (demoEngine true true 1 true 1) 0
        (afterConversion (demoEngine true true 1 true 1) (demoCache 1 false false false true) ())
        (demoSurface .Cylinder 1))[8]? = some 0 ∧
      ∀ i, i ≠ 8 →
        (cylinderRetryEncoding (demoEngine true true 1 true 1) 0
          (afterConversion (demoEngine true true 1 true 1)
            (demoCache 1 false false false true) ())
          (demoSurface .Cylinder 1))[i]? =
        (cylinderFirst (demoEngine true true 1 true 1) 0
          (afterConversion (demoEngine true true 1 true 1)
            (demoCache 1 false false false true) ())
          (demoSurface .Cylinder 1)).2.2[i]?) :=
  ⟨rfl, rfl, rfl, by decide!, rfl,
    C5_cylinder_retry_resets_selector (demoEngine true true 1 true 1) 0
      (demoCache 1 false false false true) () (demoSurface .Cylinder 1)
      rfl rfl rfl (by decide!) rfl⟩

/-- Counterexample to C5 as stated: a cylinder of half sector 1, a first kernel
invocation that succeeds (and leaves the selector at 1) and a second crossing
point. Both kernel invocations receive the selector `s[8] = 0`: no pair of
encodings with different selectors describes the two invocations. -/
theorem C5_counterexample :
    (cylinderFirst (demoEngine true true 1 true 1) 0
      (afterConversion (demoEngine true true 1 true 1) (demoCache 1 false false false true) ())
      (demoSurface .Cylinder 1)).1 = true ∧
    (demoSurface .Cylinder 1).halfPhiSector < 3.1 ∧
    cylinderCross (demoEngine true true 1 true 1) 0
      (afterConversion (demoEngine true true 1 true 1) (demoCache 1 false false false true) ())
      (demoSurface .Cylinder 1) = true ∧
    kernelCalls ((demoEngine true true 1 true 1).propagateRungeKuttaT 0
      (demoCache 1 false false false true) () (demoSurface .Cylinder 1)).calls =
      [(2, [1, 2, 3, 0, 0, 1, 4, 1, 0]), (2, [1, 2, 3, 0, 0, 1, 4, 1, 0])] ∧
    ¬ ∃ s1 s2 : List ℚ,
      kernelCalls ((demoEngine true true 1 true 1).propagateRungeKuttaT 0
        (demoCache 1 false false false true) () (demoSurface .Cylinder 1)).calls =
        [(2, s1), (2, s2)] ∧ s2[8]? ≠ s1[8]? := by
  have hcalls : kernelCalls ((demoEngine true true 1 true 1).propagateRungeKuttaT 0
      (demoCache 1 false false false true) () (demoSurface .Cylinder 1)).calls =
      [(2, [1, 2, 3, 0, 0, 1, 4, 1, 0]), (2, [1, 2, 3, 0, 0, 1, 4, 1, 0])] := by decide!
  refine ⟨rfl, by decide!, rfl, hcalls, ?_⟩
  rintro ⟨s1, s2, h, hne⟩
  rw [hcalls] at h
  simp only [List.cons.injEq, Prod.mk.injEq, true_and, and_true] at h
  obtain ⟨h1, h2⟩ := h
  exact hne (by rw [← h1, ← h2])

theorem propagate_cylinder_retry_failed (E : RungeKuttaEngine T BC) (navigationStep : Int)
    (pCache : PropagationCache BC) (parametersT : T) (dSurface : Surface BC)
    (hconv : (E.transformLocalToGlobal pCache.useJacobian parametersT pCache.pVector).1 = true)
    (hcyl : dSurface.type = .Cylinder)
    (hfirst :
      (cylinderFirst E navigationStep (afterConversion E pCache parametersT) dSurface).1 = true)
    (hsector : dSurface.halfPhiSector < 3.1)
    (hcross :
      cylinderCross E navigationStep (afterConversion E pCache parametersT) dSurface = true)
    (hsecond :
      (cylinderSecond E navigationStep (afterConversion E pCache parametersT) dSurface).1
        = false) :
    (E.propagateRungeKuttaT navigationStep pCache parametersT dSurface).result = false ∧
      (E.propagateRungeKuttaT navigationStep pCache parametersT dSurface).returnLine = 78 := by
  have hk := surfaceDispatch_cylinder E navigationStep (afterConversion E pCache parametersT)
    dSurface [Call.transformLocalToGlobal pCache.useJacobian true] hcyl
  simp only [hfirst, hsector, hcross, hsecond, if_true, Bool.true_eq_false, if_false] at hk
  rw [propagate_of_error E navigationStep pCache parametersT dSurface _ hconv hk]
  exact ⟨rfl, rfl⟩

/-- C6 (as the code has it): on a Cylinder destination whose input conversion
succeeds the kernel is invoked once or twice; it is invoked a second time
exactly when the first invocation succeeded, the half sector is below the
constant 3.1 of the source (not: below pi), and `newCrossPoint`, evaluated on the
position held before the first invocation and the state it left, holds; and if
that second invocation fails the attempt returns false, at line 78. -/
theorem C6_cylinder_retry_condition {T BC : Type} (E : RungeKuttaEngine T BC)
    (navigationStep : Int) (pCache : PropagationCache BC) (parametersT : T)
    (dSurface : Surface BC)
    (hconv : (E.transformLocalToGlobal pCache.useJacobian parametersT pCache.pVector).1 = true)
    (hcyl : dSurface.type = .Cylinder) :
    1 ≤ (kernelCalls
        (E.propagateRungeKuttaT navigationStep pCache parametersT dSurface).calls).length ∧
    (kernelCalls
        (E.propagateRungeKuttaT navigationStep pCache parametersT dSurface).calls).length ≤ 2 ∧
    ((kernelCalls
        (E.propagateRungeKuttaT navigationStep pCache parametersT dSurface).calls).length = 2 ↔
      (cylinderFirst E navigationStep (afterConversion E pCache parametersT) dSurface).1 = true
        ∧ dSurface.halfPhiSector < 3.1
        ∧ cylinderCross E navigationStep (afterConversion E pCache parametersT) dSurface
          = true) ∧
    ((cylinderFirst E navigationStep (afterConversion E pCache parametersT) dSurface).1 = true →
      dSurface.halfPhiSector < 3.1 →
      cylinderCross E navigationStep (afterConversion E pCache parametersT) dSurface = true →
      (cylinderSecond E navigationStep (afterConversion E pCache parametersT) dSurface).1
        = false →
      (E.propagateRungeKuttaT navigationStep pCache parametersT dSurface).result = false ∧
      (E.propagateRungeKuttaT navigationStep pCache parametersT dSurface).returnLine = 78) := by
  have hcalls :=
    propagate_cylinder_kernelCalls E navigationStep pCache parametersT dSurface hconv hcyl
  refine ⟨?_, ?_, ?_, ?_⟩
  · rw [hcalls]; split_ifs <;> simp
  · rw [hcalls]; split_ifs <;> simp
  · rw [hcalls]
    split_ifs with h
    · simpa using h
    · simpa using h
  · exact propagate_cylinder_retry_failed E navigationStep pCache parametersT dSurface hconv hcyl

/-- Witness of C6: a cylinder of half sector 1, a kernel that always fails. -/
theorem C6_cylinder_retry_condition_witness :
    ((demoEngine true false 1 true 1).transformLocalToGlobal
        (demoCache 1 false false false true).useJacobian ()
        (demoCache 1 false false false true).pVector).1 = true ∧
    (demoSurface .Cylinder 1).type = .Cylinder ∧
    (kernelCalls ((demoEngine true false 1 true 1).propagateRungeKuttaT 0
      (demoCache 1 false false false true) () (demoSurface .Cylinder 1)).calls).length ≤ 2 :=
  ⟨rfl, rfl,
    (C6_cylinder_retry_condition (demoEngine true false 1 true 1) 0
      (demoCache 1 false false false true) () (demoSurface .Cylinder 1) rfl rfl).2.1⟩

/-- Counterexample to C6 as stated: a cylinder of half sector 3.12, which is less
than pi, a first kernel invocation that succeeds and a `newCrossPoint` that
holds; the kernel is invoked once only. -/
theorem C6_counterexample :
    (((demoSurface .Cylinder 3.12).halfPhiSector : ℚ) : ℝ) < Real.pi ∧
    (cylinderFirst (demoEngine true true 1 true 1) 0
      (afterConversion (demoEngine true true 1 true 1) (demoCache 1 false false false true) ())
      (demoSurface .Cylinder 3.12)).1 = true ∧
    cylinderCross (demoEngine true true 1 true 1) 0
      (afterConversion (demoEngine true true 1 true 1) (demoCache 1 false false false true) ())
      (demoSurface .Cylinder 3.12) = true ∧
    (kernelCalls ((demoEngine true true 1 true 1).propagateRungeKuttaT 0
      (demoCache 1 false false false true) () (demoSurface .Cylinder 3.12)).calls).length = 1 ∧
    ((demoEngine true true 1 true 1).propagateRungeKuttaT 0
      (demoCache 1 false false false true) () (demoSurface .Cylinder 3.12)).result = true := by
  refine ⟨?_, rfl, rfl, by decide!, by decide!⟩
  have hpi := Real.pi_gt_d2
  have hq : (((demoSurface .Cylinder 3.12).halfPhiSector : ℚ) : ℝ) = 3.12 := by
    simp [demoSurface]
  rw [hq]
  norm_num at hpi ⊢
  linarith

/-- C7: the kernel is invoked only after a successful input conversion and only
for the surface types Plane, Disc, Line, Perigee, Cylinder and Cone. When
`transformLocalToGlobal` fails, or the surface type is none of the six, the call
returns false without any kernel invocation, and the local parameters, the
Jacobian, the covariance, the signed step, the requested direction and the four
flags of the cache are as they were before the call. -/
theorem C7_no_kernel_without_conversion_and_family {T BC : Type} (E : RungeKuttaEngine T BC)
    (navigationStep : Int) (pCache : PropagationCache BC) (parametersT : T)
    (dSurface : Surface BC) :
    ((E.transformLocalToGlobal pCache.useJacobian parametersT pCache.pVector).1 = false ∨
        (dSurface.type ≠ .Plane ∧ dSurface.type ≠ .Disc ∧ dSurface.type ≠ .Line ∧
          dSurface.type ≠ .Perigee ∧ dSurface.type ≠ .Cylinder ∧ dSurface.type ≠ .Cone) →
      (E.propagateRungeKuttaT navigationStep pCache parametersT dSurface).result = false ∧
      kernelCalls (E.propagateRungeKuttaT navigationStep pCache parametersT dSurface).calls
        = [] ∧
      (E.propagateRungeKuttaT navigationStep pCache parametersT dSurface).cache.parameters
        = pCache.parameters ∧
      (E.propagateRungeKuttaT navigationStep pCache parametersT dSurface).cache.jacobian
        = pCache.jacobian ∧
      (E.propagateRungeKuttaT navigationStep pCache parametersT dSurface).cache.covariance
        = pCache.covariance ∧
      (E.propagateRungeKuttaT navigationStep pCache parametersT dSurface).cache.step
        = pCache.step ∧
      (E.propagateRungeKuttaT navigationStep pCache parametersT dSurface).cache.direction
        = pCache.direction ∧
      (E.propagateRungeKuttaT navigationStep pCache parametersT dSurface).cache.useJacobian
        = pCache.useJacobian ∧
      (E.propagateRungeKuttaT navigationStep pCache parametersT dSurface).cache.maxPathLimit
        = pCache.maxPathLimit ∧
      (E.propagateRungeKuttaT navigationStep pCache parametersT dSurface).cache.returnCurvilinear
        = pCache.returnCurvilinear ∧
      (E.propagateRungeKuttaT navigationStep pCache parametersT dSurface).cache.boundaryCheck
        = pCache.boundaryCheck) ∧
    (kernelCalls (E.propagateRungeKuttaT navigationStep pCache parametersT dSurface).calls
        ≠ [] →
      (E.transformLocalToGlobal pCache.useJacobian parametersT pCache.pVector).1 = true ∧
      (dSurface.type = .Plane ∨ dSurface.type = .Disc ∨ dSurface.type = .Line ∨
        dSurface.type = .Perigee ∨ dSurface.type = .Cylinder ∨ dSurface.type = .Cone)) := by
  have key : (E.transformLocalToGlobal pCache.useJacobian parametersT pCache.pVector).1 = false ∨
        (dSurface.type ≠ .Plane ∧ dSurface.type ≠ .Disc ∧ dSurface.type ≠ .Line ∧
          dSurface.type ≠ .Perigee ∧ dSurface.type ≠ .Cylinder ∧ dSurface.type ≠ .Cone) →
      ∃ log, E.propagateRungeKuttaT navigationStep pCache parametersT dSurface =
        ⟨false, afterConversion E pCache parametersT, log, if
          (E.transformLocalToGlobal pCache.useJacobian parametersT pCache.pVector).1 = false
          then 16 else 98⟩ ∧ kernelCalls log = [] := by
    intro h
    by_cases hconv :
        (E.transformLocalToGlobal pCache.useJacobian parametersT pCache.pVector).1 = false
    · exact ⟨[Call.transformLocalToGlobal pCache.useJacobian false],
        by rw [propagate_conversion_failed E navigationStep pCache parametersT dSurface
          hconv, if_pos hconv], rfl⟩
    · rcases h with h | ⟨h1, h2, h3, h4, h5, h6⟩
      · exact absurd h hconv
      · simp only [Bool.not_eq_false] at hconv
        have hk : surfaceDispatch E navigationStep (afterConversion E pCache parametersT)
            dSurface [Call.transformLocalToGlobal pCache.useJacobian true] =
            .error ⟨false, afterConversion E pCache parametersT,
              [Call.transformLocalToGlobal pCache.useJacobian true], 98⟩ := by
          simp [surfaceDispatch, h1, h2, h3, h4, h5, h6]
        refine ⟨[Call.transformLocalToGlobal pCache.useJacobian true], ?_, rfl⟩
        rw [propagate_of_error E navigationStep pCache parametersT dSurface _ hconv hk]
        simp [hconv]
  refine ⟨?_, ?_⟩
  · intro h
    obtain ⟨log, heq, hlog⟩ := key h
    rw [heq]
    exact ⟨rfl, hlog, rfl, rfl, rfl, rfl, rfl, rfl, rfl, rfl, rfl⟩
  · intro hne
    by_contra hcon
    apply hne
    have h : (E.transformLocalToGlobal pCache.useJacobian parametersT pCache.pVector).1 = false ∨
        (dSurface.type ≠ .Plane ∧ dSurface.type ≠ .Disc ∧ dSurface.type ≠ .Line ∧
          dSurface.type ≠ .Perigee ∧ dSurface.type ≠ .Cylinder ∧ dSurface.type ≠ .Cone) := by
      by_cases hconv :
          (E.transformLocalToGlobal pCache.useJacobian parametersT pCache.pVector).1 = false
      · exact Or.inl hconv
      · simp only [Bool.not_eq_false] at hconv
        right
        simp only [hconv, true_and, not_or] at hcon
        exact hcon
    obtain ⟨log, heq, hlog⟩ := key h
    rw [heq]
    exact hlog

/-- Witness of C7: a failing input conversion in front of a cylinder, and a
successful one in front of a surface of another type. -/
theorem C7_no_kernel_without_conversion_and_family_witness :
    (((demoEngine false true 1 true 1).transformLocalToGlobal
        (demoCache 1 false false false true).useJacobian ()
        (demoCache 1 false false false true).pVector).1 = false ∧
      ((demoEngine false true 1 true 1).propagateRungeKuttaT 0
        (demoCache 1 false false false true) () (demoSurface .Cylinder 1)).result = false ∧
      kernelCalls ((demoEngine false true 1 true 1).propagateRungeKuttaT 0
        (demoCache 1 false false false true) () (demoSurface .Cylinder 1)).calls = []) ∧
    ((demoSurface .Other 1).type = .Other ∧
      ((demoEngine true true 1 true 1).propagateRungeKuttaT 0
        (demoCache 1 false false false true) () (demoSurface .Other 1)).result = false ∧
      kernelCalls ((demoEngine true true 1 true 1).propagateRungeKuttaT 0
        (demoCache 1 false false false true) () (demoSurface .Other 1)).calls = []) :=
  ⟨⟨rfl,
    ((C7_no_kernel_without_conversion_and_family (demoEngine false true 1 true 1) 0
      (demoCache 1 false false false true) () (demoSurface .Cylinder 1)).1 (Or.inl rfl)).1,
    ((C7_no_kernel_without_conversion_and_family (demoEngine false true 1 true 1) 0
      (demoCache 1 false false false true) () (demoSurface .Cylinder 1)).1 (Or.inl rfl)).2.1⟩,
   ⟨rfl,
    ((C7_no_kernel_without_conversion_and_family (demoEngine true true 1 true 1) 0
      (demoCache 1 false false false true) () (demoSurface .Other 1)).1
        (Or.inr (by decide))).1,
    ((C7_no_kernel_without_conversion_and_family (demoEngine true true 1 true 1) 0
      (demoCache 1 false false false true) () (demoSurface .Other 1)).1
        (Or.inr (by decide))).2.1⟩⟩

theorem surfaceDispatch_error_result (E : RungeKuttaEngine T BC) (navigationStep : Int)
    (pCache : PropagationCache BC) (dSurface : Surface BC) (calls : List Call)
    (o : Outcome BC) (h : surfaceDispatch E navigationStep pCache dSurface calls = .error o) :
    o.result = false := by
  unfold surfaceDispatch at h
  simp only [] at h
  split_ifs at h <;> (cases h; rfl)

theorem propagate_success_inv (E : RungeKuttaEngine T BC) (navigationStep : Int)
    (pCache : PropagationCache BC) (parametersT : T) (dSurface : Surface BC)
    (hres : (E.propagateRungeKuttaT navigationStep pCache parametersT dSurface).result = true) :
    (E.transformLocalToGlobal pCache.useJacobian parametersT pCache.pVector).1 = true ∧
    ∃ pCache0 calls0,
      surfaceDispatch E navigationStep (afterConversion E pCache parametersT) dSurface
        [Call.transformLocalToGlobal pCache.useJacobian true] = .ok (pCache0, calls0) := by
  by_cases hconv :
      (E.transformLocalToGlobal pCache.useJacobian parametersT pCache.pVector).1 = false
  · rw [propagate_conversion_failed E navigationStep pCache parametersT dSurface hconv] at hres
    simp at hres
  · simp only [Bool.not_eq_false] at hconv
    refine ⟨hconv, ?_⟩
    cases hk : surfaceDispatch E navigationStep (afterConversion E pCache parametersT) dSurface
        [Call.transformLocalToGlobal pCache.useJacobian true] with
    | error o =>
      rw [propagate_of_error E navigationStep pCache parametersT dSurface o hconv hk,
        surfaceDispatch_error_result E navigationStep _ dSurface _ o hk] at hres
      simp at hres
    | ok x => exact ⟨x.1, x.2, rfl⟩

theorem outputStage_direction_mismatch (E : RungeKuttaEngine T BC) (parametersT : T)
    (dSurface : Surface BC) (pCache0 : PropagationCache BC) (calls0 : List Call)
    (h : directionMismatch pCache0) :
    outputStage E parametersT dSurface pCache0 calls0 = ⟨false, pCache0, calls0, 107⟩ := by
  unfold outputStage
  rw [if_pos h]

theorem outputStage_returnLine_ne_107 (E : RungeKuttaEngine T BC) (parametersT : T)
    (dSurface : Surface BC) (pCache0 : PropagationCache BC) (calls0 : List Call)
    (h : ¬ directionMismatch pCache0) :
    (outputStage E parametersT dSurface pCache0 calls0).returnLine ≠ 107 := by
  unfold outputStage
  rw [if_neg h]
  simp only []
  split_ifs <;> simp

theorem normalizeJacobian_step (c : PropagationCache BC) (x : ℚ) :
    normalizeJacobian { c with step := x } = { normalizeJacobian c with step := x } := by
  unfold normalizeJacobian
  split_ifs <;> rfl

theorem decideFrame_step (c : PropagationCache BC) (x : ℚ) :
    decideFrame { c with step := x } = { decideFrame c with step := x } := by
  unfold decideFrame
  split_ifs <;> rfl

theorem localFrame_step (E : RungeKuttaEngine T BC) (dSurface : Surface BC)
    (c : PropagationCache BC) (x : ℚ) :
    localFrame E dSurface { c with step := x } = { localFrame E dSurface c with step := x } := by
  unfold localFrame
  rw [normalizeJacobian_step, decideFrame_step]
  rfl

theorem curvilinearFrame_step (E : RungeKuttaEngine T BC) (c : PropagationCache BC) (x : ℚ) :
    curvilinearFrame E { c with step := x } = { curvilinearFrame E c with step := x } := by
  unfold curvilinearFrame
  split_ifs <;> rfl

/-- With no direction requested, the output stage does not look at the step. -/
theorem outputStage_step (E : RungeKuttaEngine T BC) (parametersT : T)
    (dSurface : Surface BC) (c : PropagationCache BC) (calls0 : List Call) (x : ℚ)
    (hdir : c.direction = 0) :
    outputStage E parametersT dSurface { c with step := x } calls0 =
      ⟨(outputStage E parametersT dSurface c calls0).result,
        { (outputStage E parametersT dSurface c calls0).cache with step := x },
        (outputStage E parametersT dSurface c calls0).calls,
        (outputStage E parametersT dSurface c calls0).returnLine⟩ := by
  have h1 : ¬ directionMismatch c := fun h => h.1 hdir
  have h2 : ¬ directionMismatch { c with step := x } := fun h => h.1 hdir
  unfold outputStage
  rw [if_neg h1, if_neg h2, localFrame_step, normalizeJacobian_step, decideFrame_step]
  simp only [curvilinearFrame_step]
  have hf : frameJacobian { decideFrame (normalizeJacobian c) with step := x } =
      frameJacobian (decideFrame (normalizeJacobian c)) := rfl
  have ho : outOfBounds E dSurface { localFrame E dSurface c with step := x } ↔
      outOfBounds E dSurface (localFrame E dSurface c) := Iff.rfl
  have hp : localPosition { localFrame E dSurface c with step := x } =
      localPosition (localFrame E dSurface c) := rfl
  have ht : ∀ k : PropagationCache BC,
      transportedCovariance E parametersT { k with step := x } =
        transportedCovariance E parametersT k := fun _ => rfl
  simp only [hf, ho, hp, ht]
  split_ifs <;> rfl

/-- C8: direction consistency. On a supported surface on which the conversion and
the kernel succeeded, leaving the cache `pCache0`: the attempt is the output
stage run on `pCache0`; if the direction of `pCache0` is positive and its step
negative, or the direction negative and the step positive, the attempt returns
false at the direction check (line 107); if the direction is zero the attempt
does not return at the direction check, and its outcome with any other step,
the opposite one in particular, is the same result, return line and call
log, with a cache that differs in the step only. -/
theorem C8_direction_consistency {T BC : Type} (E : RungeKuttaEngine T BC)
    (navigationStep : Int) (pCache : PropagationCache BC) (parametersT : T)
    (dSurface : Surface BC) (pCache0 : PropagationCache BC) (calls0 : List Call)
    (hconv : (E.transformLocalToGlobal pCache.useJacobian parametersT pCache.pVector).1 = true)
    (hk : surfaceDispatch E navigationStep (afterConversion E pCache parametersT) dSurface
      [Call.transformLocalToGlobal pCache.useJacobian true] = .ok (pCache0, calls0)) :
    E.propagateRungeKuttaT navigationStep pCache parametersT dSurface =
      outputStage E parametersT dSurface pCache0 calls0 ∧
    ((0 < pCache0.direction ∧ pCache0.step < 0) ∨ (pCache0.direction < 0 ∧ 0 < pCache0.step) →
      (E.propagateRungeKuttaT navigationStep pCache parametersT dSurface).result = false ∧
      (E.propagateRungeKuttaT navigationStep pCache parametersT dSurface).returnLine = 107) ∧
    (pCache0.direction = 0 →
      (E.propagateRungeKuttaT navigationStep pCache parametersT dSurface).returnLine ≠ 107 ∧
      ∀ x : ℚ,
        outputStage E parametersT dSurface { pCache0 with step := x } calls0 =
          ⟨(E.propagateRungeKuttaT navigationStep pCache parametersT dSurface).result,
            { (E.propagateRungeKuttaT navigationStep pCache parametersT dSurface).cache with
              step := x },
            (E.propagateRungeKuttaT navigationStep pCache parametersT dSurface).calls,
            (E.propagateRungeKuttaT navigationStep pCache parametersT dSurface).returnLine⟩) := by
  have heq := propagate_of_ok E navigationStep pCache parametersT dSurface pCache0 calls0 hconv hk
  refine ⟨heq, ?_, ?_⟩
  · intro h
    have hm : directionMismatch pCache0 := by
      rcases h with ⟨hd, hs⟩ | ⟨hd, hs⟩
      · exact ⟨ne_of_gt hd, mul_neg_of_pos_of_neg hd hs⟩
      · exact ⟨ne_of_lt hd, mul_neg_of_neg_of_pos hd hs⟩
    rw [heq, outputStage_direction_mismatch E parametersT dSurface pCache0 calls0 hm]
    exact ⟨rfl, rfl⟩
  · intro hdir
    rw [heq]
    exact ⟨outputStage_returnLine_ne_107 E parametersT dSurface pCache0 calls0
        (fun h => h.1 hdir),
      fun x => outputStage_step E parametersT dSurface pCache0 calls0 x hdir⟩

/-- Witness of C8: a forward request in front of a line surface, answered by the
kernel with the step -2. -/
theorem C8_direction_consistency_witness :
    ((demoEngine true true (-2) true 1).transformLocalToGlobal
        (demoCache 1 false false false true).useJacobian ()
        (demoCache 1 false false false true).pVector).1 = true ∧
    surfaceDispatch (demoEngine true true (-2) true 1) 0
      (afterConversion (demoEngine true true (-2) true 1)
        (demoCache 1 false false false true) ())
      (demoSurface .Line 1)
      [Call.transformLocalToGlobal (demoCache 1 false false false true).useJacobian true] =
      .ok ({ demoCache 1 false false false true with step := -2 },
        [Call.transformLocalToGlobal false true,
          Call.propagateWithJacobian 0 [1, 2, 3, 0, 0, 1] true]) ∧
    ((demoEngine true true (-2) true 1).propagateRungeKuttaT 0
      (demoCache 1 false false false true) () (demoSurface .Line 1)).result = false ∧
    ((demoEngine true true (-2) true 1).propagateRungeKuttaT 0
      (demoCache 1 false false false true) () (demoSurface .Line 1)).returnLine = 107 :=
  ⟨rfl, rfl,
    (C8_direction_consistency (demoEngine true true (-2) true 1) 0
      (demoCache 1 false false false true) () (demoSurface .Line 1)
      { demoCache 1 false false false true with step := -2 }
      [Call.transformLocalToGlobal false true,
        Call.propagateWithJacobian 0 [1, 2, 3, 0, 0, 1] true] rfl rfl).2.1
      (Or.inl ⟨by decide!, by decide!⟩)⟩

theorem curvilinearFrame_useJacobian (E : RungeKuttaEngine T BC) (c : PropagationCache BC) :
    (curvilinearFrame E c).useJacobian = c.useJacobian ∧
    (curvilinearFrame E c).boundaryCheck = c.boundaryCheck ∧
    (curvilinearFrame E c).returnCurvilinear = c.returnCurvilinear := by
  unfold curvilinearFrame
  split_ifs <;> exact ⟨rfl, rfl, rfl⟩

theorem normalizeJacobian_flags (c : PropagationCache BC) :
    (normalizeJacobian c).useJacobian = c.useJacobian ∧
    (normalizeJacobian c).boundaryCheck = c.boundaryCheck ∧
    (normalizeJacobian c).returnCurvilinear = c.returnCurvilinear ∧
    (normalizeJacobian c).maxPathLimit = c.maxPathLimit := by
  unfold normalizeJacobian
  split_ifs <;> exact ⟨rfl, rfl, rfl, rfl⟩

theorem localFrame_flags (E : RungeKuttaEngine T BC) (dSurface : Surface BC)
    (c : PropagationCache BC) :
    (localFrame E dSurface c).useJacobian = c.useJacobian ∧
    (localFrame E dSurface c).boundaryCheck = c.boundaryCheck ∧
    (localFrame E dSurface c).returnCurvilinear = (c.maxPathLimit || c.returnCurvilinear) := by
  obtain ⟨h1, h2, h3, h4⟩ := normalizeJacobian_flags c
  unfold localFrame decideFrame
  simp only []
  split_ifs with h
  · rw [h4] at h
    exact ⟨h1, h2, by simp [h]⟩
  · rw [h4] at h
    exact ⟨h1, h2, by simp [h, h3]⟩

theorem degenerate_of_entry (cov : Nat → Nat → ℚ) (i : Nat) (hi : i < 5) (h : cov i i ≤ 0) :
    degenerate cov := by
  unfold degenerate
  interval_cases i
  · exact Or.inl h
  · exact Or.inr (Or.inl h)
  · exact Or.inr (Or.inr (Or.inl h))
  · exact Or.inr (Or.inr (Or.inr (Or.inl h)))
  · exact Or.inr (Or.inr (Or.inr (Or.inr h)))

/-- The output stage from the covariance transport on, when every earlier check
passed and `useJacobian` is set. -/
theorem outputStage_covariance (E : RungeKuttaEngine T BC) (parametersT : T)
    (dSurface : Surface BC) (c : PropagationCache BC) (calls0 : List Call)
    (hdir : ¬ directionMismatch c)
    (hbnd : ¬ outOfBounds E dSurface (localFrame E dSurface c))
    (huse : c.useJacobian = true) :
    ∃ calls3,
      outputStage E parametersT dSurface c calls0 =
        if degenerate (transportedCovariance E parametersT
            (curvilinearFrame E (localFrame E dSurface c))) then
          ⟨false, { curvilinearFrame E (localFrame E dSurface c) with covariance := none },
            calls3 ++ [Call.newCovarianceMatrix], 151⟩
        else
          ⟨true, { curvilinearFrame E (localFrame E dSurface c) with
              covariance := some (transportedCovariance E parametersT
                (curvilinearFrame E (localFrame E dSurface c))) },
            calls3 ++ [Call.newCovarianceMatrix], 155⟩ := by
  have hu : (curvilinearFrame E (localFrame E dSurface c)).useJacobian = true := by
    rw [(curvilinearFrame_useJacobian E _).1, (localFrame_flags E dSurface c).1, huse]
  unfold outputStage
  rw [if_neg hdir]
  simp only []
  rw [if_neg hbnd, if_pos hu]
  exact ⟨_, rfl⟩

/-- C9: covariance rejection. On a supported surface on which the conversion and
the kernel succeeded, leaving the cache `pCache0` with `useJacobian` set, and on
which the direction check and the boundary check pass: if the covariance built
by `newCovarianceMatrix` from the Jacobian of the cache and the covariance of
the input parameters has an entry `(i, i)`, `i < 5`, that is zero or negative,
the attempt returns false (at line 151) after having built the matrix, and the
covariance of the cache is null on return. -/
theorem C9_covariance_rejection {T BC : Type} (E : RungeKuttaEngine T BC)
    (navigationStep : Int) (pCache : PropagationCache BC) (parametersT : T)
    (dSurface : Surface BC) (pCache0 : PropagationCache BC) (calls0 : List Call)
    (hconv : (E.transformLocalToGlobal pCache.useJacobian parametersT pCache.pVector).1 = true)
    (hk : surfaceDispatch E navigationStep (afterConversion E pCache parametersT) dSurface
      [Call.transformLocalToGlobal pCache.useJacobian true] = .ok (pCache0, calls0))
    (hdir : ¬ directionMismatch pCache0)
    (hbnd : ¬ outOfBounds E dSurface (localFrame E dSurface pCache0))
    (huse : pCache0.useJacobian = true)
    (hbad : ∃ i, i < 5 ∧
      transportedCovariance E parametersT
        (curvilinearFrame E (localFrame E dSurface pCache0)) i i ≤ 0) :
    (E.propagateRungeKuttaT navigationStep pCache parametersT dSurface).result = false ∧
    (E.propagateRungeKuttaT navigationStep pCache parametersT dSurface).cache.covariance
      = none ∧
    (E.propagateRungeKuttaT navigationStep pCache parametersT dSurface).returnLine = 151 ∧
    Call.newCovarianceMatrix ∈
      (E.propagateRungeKuttaT navigationStep pCache parametersT dSurface).calls ∧
    (E.propagateRungeKuttaT navigationStep pCache parametersT dSurface).cache.jacobian =
      (curvilinearFrame E (localFrame E dSurface pCache0)).jacobian := by
  obtain ⟨i, hi, hle⟩ := hbad
  have hdeg := degenerate_of_entry _ i hi hle
  obtain ⟨calls3, heq⟩ :=
    outputStage_covariance E parametersT dSurface pCache0 calls0 hdir hbnd huse
  rw [if_pos hdeg] at heq
  rw [propagate_of_ok E navigationStep pCache parametersT dSurface pCache0 calls0 hconv hk, heq]
  exact ⟨rfl, rfl, rfl, by simp, rfl⟩

/-- Witness of C9: Jacobian transport in front of a line surface, with a
transported covariance that is zero throughout. -/
theorem C9_covariance_rejection_witness :
    ((demoEngine true true 1 true 0).transformLocalToGlobal
        (demoCache 1 true false false false).useJacobian ()
        (demoCache 1 true false false false).pVector).1 = true ∧
    surfaceDispatch (demoEngine true true 1 true 0) 0
      (afterConversion (demoEngine true true 1 true 0) (demoCache 1 true false false false) ())
      (demoSurface .Line 1)
      [Call.transformLocalToGlobal (demoCache 1 true false false false).useJacobian true] =
      .ok ({ demoCache 1 true false false false with step := 1 },
        [Call.transformLocalToGlobal true true,
          Call.propagateWithJacobian 0 [1, 2, 3, 0, 0, 1] true]) ∧
    ¬ directionMismatch { demoCache 1 true false false false with step := 1 } ∧
    ¬ outOfBounds (demoEngine true true 1 true 0) (demoSurface .Line 1)
      (localFrame (demoEngine true true 1 true 0) (demoSurface .Line 1)
        { demoCache 1 true false false false with step := 1 }) ∧
    (∃ i, i < 5 ∧
      transportedCovariance (demoEngine true true 1 true 0) ()
        (curvilinearFrame (demoEngine true true 1 true 0)
          (localFrame (demoEngine true true 1 true 0) (demoSurface .Line 1)
            { demoCache 1 true false false false with step := 1 })) i i ≤ 0) ∧
    ((demoEngine true true 1 true 0).propagateRungeKuttaT 0
      (demoCache 1 true false false false) () (demoSurface .Line 1)).result = false ∧
    ((demoEngine true true 1 true 0).propagateRungeKuttaT 0
      (demoCache 1 true false false false) () (demoSurface .Line 1)).cache.covariance = none :=
  have hdir : ¬ directionMismatch { demoCache 1 true false false false with step := 1 } := by
    decide!
  have hbnd : ¬ outOfBounds (demoEngine true true 1 true 0) (demoSurface .Line 1)
      (localFrame (demoEngine true true 1 true 0) (demoSurface .Line 1)
        { demoCache 1 true false false false with step := 1 }) := by
    decide!
  have hbad : ∃ i, i < 5 ∧
      transportedCovariance (demoEngine true true 1 true 0) ()
        (curvilinearFrame (demoEngine true true 1 true 0)
          (localFrame (demoEngine true true 1 true 0) (demoSurface .Line 1)
            { demoCache 1 true false false false with step := 1 })) i i ≤ 0 :=
    ⟨0, by decide, by decide!⟩
  ⟨rfl, rfl, hdir, hbnd, hbad,
    (C9_covariance_rejection (demoEngine true true 1 true 0) 0
      (demoCache 1 true false false false) () (demoSurface .Line 1)
      { demoCache 1 true false false false with step := 1 }
      [Call.transformLocalToGlobal true true,
        Call.propagateWithJacobian 0 [1, 2, 3, 0, 0, 1] true]
      rfl rfl hdir hbnd rfl hbad).1,
    (C9_covariance_rejection (demoEngine true true 1 true 0) 0
      (demoCache 1 true false false false) () (demoSurface .Line 1)
      { demoCache 1 true false false false with step := 1 }
      [Call.transformLocalToGlobal true true,
        Call.propagateWithJacobian 0 [1, 2, 3, 0, 0, 1] true]
      rfl rfl hdir hbnd rfl hbad).2.1⟩

/-- What a successful output stage went through. -/
theorem outputStage_success (E : RungeKuttaEngine T BC) (parametersT : T)
    (dSurface : Surface BC) (c : PropagationCache BC) (calls0 : List Call)
    (hres : (outputStage E parametersT dSurface c calls0).result = true) :
    ¬ directionMismatch c ∧ ¬ outOfBounds E dSurface (localFrame E dSurface c) ∧
    (outputStage E parametersT dSurface c calls0).cache.parameters =
      (curvilinearFrame E (localFrame E dSurface c)).parameters ∧
    (outputStage E parametersT dSurface c calls0).cache.boundaryCheck = c.boundaryCheck ∧
    (outputStage E parametersT dSurface c calls0).cache.returnCurvilinear =
      (localFrame E dSurface c).returnCurvilinear ∧
    (E.boundaryCheckOn c.boundaryCheck = true →
      Call.insideBounds (localPosition (localFrame E dSurface c))
        (dSurface.insideBounds (localPosition (localFrame E dSurface c)) c.boundaryCheck)
        ∈ (outputStage E parametersT dSurface c calls0).calls) := by
  have hb := (localFrame_flags E dSurface c).2.1
  have hc := curvilinearFrame_useJacobian E (localFrame E dSurface c)
  unfold outputStage at hres ⊢
  by_cases hdir : directionMismatch c
  · rw [if_pos hdir] at hres
    simp at hres
  · rw [if_neg hdir] at hres ⊢
    simp only [] at hres ⊢
    by_cases hbnd : outOfBounds E dSurface (localFrame E dSurface c)
    · rw [if_pos hbnd] at hres
      simp at hres
    · rw [if_neg hbnd] at hres ⊢
      refine ⟨hdir, hbnd, ?_, ?_, ?_, ?_⟩
      · split_ifs <;> rfl
      · split_ifs <;> simp [hc.2.1, hb]
      · split_ifs <;> simp [hc.2.2]
      · intro hon
        rw [hb]
        split_ifs <;> simp_all

/-- C10 (as the code has it): if `propagateRungeKuttaT` returns success with the
boundary check enabled, then the surface-local position produced by
`transformGlobalToLocal` was handed to `insideBounds` and satisfies it under the
configured boundary check; and if curvilinear output is not in force
(`returnCurvilinear` is false on return, so that neither it was requested nor
the path limit was reached), that position is the local position held in the
cache on return, which therefore satisfies `insideBounds`. -/
theorem C10_inside_bounds_on_success {T BC : Type} (E : RungeKuttaEngine T BC)
    (navigationStep : Int) (pCache : PropagationCache BC) (parametersT : T)
    (dSurface : Surface BC)
    (hres : (E.propagateRungeKuttaT navigationStep pCache parametersT dSurface).result = true)
    (hbc : E.boundaryCheckOn
      (E.propagateRungeKuttaT navigationStep pCache parametersT dSurface).cache.boundaryCheck
        = true) :
    (∃ pCache0 calls0,
      surfaceDispatch E navigationStep (afterConversion E pCache parametersT) dSurface
        [Call.transformLocalToGlobal pCache.useJacobian true] = .ok (pCache0, calls0) ∧
      dSurface.insideBounds (localPosition (localFrame E dSurface pCache0))
        (E.propagateRungeKuttaT navigationStep pCache parametersT dSurface).cache.boundaryCheck
        = true ∧
      Call.insideBounds (localPosition (localFrame E dSurface pCache0)) true ∈
        (E.propagateRungeKuttaT navigationStep pCache parametersT dSurface).calls ∧
      ((E.propagateRungeKuttaT navigationStep pCache parametersT dSurface).cache.returnCurvilinear
          = false →
        localPosition (E.propagateRungeKuttaT navigationStep pCache parametersT dSurface).cache
          = localPosition (localFrame E dSurface pCache0))) ∧
    ((E.propagateRungeKuttaT navigationStep pCache parametersT dSurface).cache.returnCurvilinear
        = false →
      dSurface.insideBounds
        (localPosition (E.propagateRungeKuttaT navigationStep pCache parametersT dSurface).cache)
        (E.propagateRungeKuttaT navigationStep pCache parametersT dSurface).cache.boundaryCheck
        = true) := by
  obtain ⟨hconv, c, calls0, hk⟩ :=
    propagate_success_inv E navigationStep pCache parametersT dSurface hres
  have heq := propagate_of_ok E navigationStep pCache parametersT dSurface c calls0 hconv hk
  rw [heq] at hres hbc ⊢
  obtain ⟨_, hbnd, hpar, hbcEq, hrc, hlog⟩ :=
    outputStage_success E parametersT dSurface c calls0 hres
  rw [hbcEq] at hbc ⊢
  have hflag := (localFrame_flags E dSurface c).2.1
  have hin : dSurface.insideBounds (localPosition (localFrame E dSurface c)) c.boundaryCheck
      = true := by
    by_contra hcon
    simp only [Bool.not_eq_true] at hcon
    exact hbnd ⟨by rw [hflag]; exact hbc, by rw [hflag]; exact hcon⟩
  have hpos : (outputStage E parametersT dSurface c calls0).cache.returnCurvilinear = false →
      localPosition (outputStage E parametersT dSurface c calls0).cache =
        localPosition (localFrame E dSurface c) := by
    intro hnc
    rw [hrc] at hnc
    unfold localPosition
    rw [hpar]
    unfold curvilinearFrame
    simp [hnc]
  refine ⟨⟨c, calls0, hk, hin, ?_, hpos⟩, ?_⟩
  · have := hlog hbc
    rw [hin] at this
    exact this
  · intro hnc
    rw [hpos hnc]
    exact hin

/-- Witness of C10: a forward propagation to a plane with the boundary check on
and surface-local output. -/
theorem C10_inside_bounds_on_success_witness :
    ((demoEngine true true 1 true 1).propagateRungeKuttaT 0
        (demoCache 1 false false false true) () (demoSurface .Plane 1)).result = true ∧
    (demoEngine true true 1 true 1).boundaryCheckOn
      ((demoEngine true true 1 true 1).propagateRungeKuttaT 0
        (demoCache 1 false false false true) () (demoSurface .Plane 1)).cache.boundaryCheck
      = true ∧
    (((demoEngine true true 1 true 1).propagateRungeKuttaT 0
        (demoCache 1 false false false true) () (demoSurface .Plane 1)).cache.returnCurvilinear
        = false →
      (demoSurface .Plane 1).insideBounds
        (localPosition ((demoEngine true true 1 true 1).propagateRungeKuttaT 0
          (demoCache 1 false false false true) () (demoSurface .Plane 1)).cache)
        ((demoEngine true true 1 true 1).propagateRungeKuttaT 0
          (demoCache 1 false false false true) () (demoSurface .Plane 1)).cache.boundaryCheck
        = true) :=
  ⟨by decide!, by decide!,
    (C10_inside_bounds_on_success (demoEngine true true 1 true 1) 0
      (demoCache 1 false false false true) () (demoSurface .Plane 1)
      (by decide!) (by decide!)).2⟩

/-- Counterexample to C10 as stated: curvilinear output is requested and the
boundary check is on; the surface-local position `(0, 0)` passes the check, the
call succeeds, and the cache then holds the curvilinear parameters `(5, 5)`,
which are outside the bounds of the surface. -/
theorem C10_counterexample :
    ((demoEngine true true 1 true 1).propagateRungeKuttaT 0
        (demoCache 1 false false true true) () (demoSurface .Plane 1)).result = true ∧
    (demoEngine true true 1 true 1).boundaryCheckOn
      ((demoEngine true true 1 true 1).propagateRungeKuttaT 0
        (demoCache 1 false false true true) () (demoSurface .Plane 1)).cache.boundaryCheck
      = true ∧
    localPosition ((demoEngine true true 1 true 1).propagateRungeKuttaT 0
        (demoCache 1 false false true true) () (demoSurface .Plane 1)).cache = (5, 5) ∧
    (demoSurface .Plane 1).insideBounds
      (localPosition ((demoEngine true true 1 true 1).propagateRungeKuttaT 0
        (demoCache 1 false false true true) () (demoSurface .Plane 1)).cache)
      ((demoEngine true true 1 true 1).propagateRungeKuttaT 0
        (demoCache 1 false false true true) () (demoSurface .Plane 1)).cache.boundaryCheck
      = false := by
  refine ⟨by decide!, by decide!, by decide!, by decide!⟩

theorem propagate_planar_kernelCalls (E : RungeKuttaEngine T BC) (navigationStep : Int)
    (pCache : PropagationCache BC) (parametersT : T) (dSurface : Surface BC)
    (hconv : (E.transformLocalToGlobal pCache.useJacobian parametersT pCache.pVector).1 = true)
    (hplanar : dSurface.type = .Plane ∨ dSurface.type = .Disc) :
    kernelCalls (E.propagateRungeKuttaT navigationStep pCache parametersT dSurface).calls =
      [(1, planarEncoding dSurface.transform)] := by
  rw [propagate_kernelCalls E navigationStep pCache parametersT dSurface hconv]
  unfold surfaceDispatch
  simp only [hplanar, if_true]
  split_ifs <;> simp [stageCalls, kernelCalls, kernelCalls_append]

theorem propagate_line_kernelCalls (E : RungeKuttaEngine T BC) (navigationStep : Int)
    (pCache : PropagationCache BC) (parametersT : T) (dSurface : Surface BC)
    (hconv : (E.transformLocalToGlobal pCache.useJacobian parametersT pCache.pVector).1 = true)
    (hline : dSurface.type = .Line ∨ dSurface.type = .Perigee) :
    kernelCalls (E.propagateRungeKuttaT navigationStep pCache parametersT dSurface).calls =
      [(0, lineEncoding dSurface.transform)] := by
  have hnp : ¬ (dSurface.type = .Plane ∨ dSurface.type = .Disc) := by
    rcases hline with h | h <;> simp [h]
  rw [propagate_kernelCalls E navigationStep pCache parametersT dSurface hconv]
  unfold surfaceDispatch
  simp only [hnp, hline, if_true, if_false]
  split_ifs <;> simp [stageCalls, kernelCalls, kernelCalls_append]

theorem propagate_cone_kernelCalls (E : RungeKuttaEngine T BC) (navigationStep : Int)
    (pCache : PropagationCache BC) (parametersT : T) (dSurface : Surface BC)
    (hconv : (E.transformLocalToGlobal pCache.useJacobian parametersT pCache.pVector).1 = true)
    (hcone : dSurface.type = .Cone) :
    kernelCalls (E.propagateRungeKuttaT navigationStep pCache parametersT dSurface).calls =
      [(3, coneEncoding dSurface.transform dSurface.tanAlpha pCache.direction)] := by
  rw [propagate_kernelCalls E navigationStep pCache parametersT dSurface hconv]
  have hdir : (afterConversion E pCache parametersT).direction = pCache.direction := rfl
  unfold surfaceDispatch
  simp only [hcone, hdir]
  split_ifs <;> simp_all [stageCalls, kernelCalls, kernelCalls_append]

/-- A field of the cache that the kernel leaves alone is the same after the
surface dispatch, on either exit. -/
theorem surfaceDispatch_preserves {α : Type} (f : PropagationCache BC → α)
    (E : RungeKuttaEngine T BC)
    (hkernel : ∀ n c k s, f (E.propagateWithJacobian n c k s).2.1 = f c)
    (navigationStep : Int) (pCache : PropagationCache BC) (dSurface : Surface BC)
    (calls : List Call) :
    (∀ o, surfaceDispatch E navigationStep pCache dSurface calls = .error o →
      f o.cache = f pCache) ∧
    (∀ c calls0, surfaceDispatch E navigationStep pCache dSurface calls = .ok (c, calls0) →
      f c = f pCache) := by
  unfold surfaceDispatch
  simp only []
  refine ⟨?_, ?_⟩
  · intro o h
    split_ifs at h <;> cases h <;> simp [hkernel]
  · intro c calls0 h
    split_ifs at h <;> cases h <;> simp [hkernel]

theorem localFrame_covariance (E : RungeKuttaEngine T BC) (dSurface : Surface BC)
    (c : PropagationCache BC) : (localFrame E dSurface c).covariance = c.covariance := by
  unfold localFrame decideFrame normalizeJacobian
  simp only []
  split_ifs <;> rfl

/-- The three ways in which the output stage returns false. -/
theorem outputStage_failure (E : RungeKuttaEngine T BC) (parametersT : T)
    (dSurface : Surface BC) (c : PropagationCache BC) (calls0 : List Call)
    (hres : (outputStage E parametersT dSurface c calls0).result = false) :
    ((outputStage E parametersT dSurface c calls0).returnLine = 107 ∧
      (outputStage E parametersT dSurface c calls0).cache = c) ∨
    ((outputStage E parametersT dSurface c calls0).returnLine = 133 ∧
      (outputStage E parametersT dSurface c calls0).cache = localFrame E dSurface c) ∨
    ((outputStage E parametersT dSurface c calls0).returnLine = 151 ∧
      (outputStage E parametersT dSurface c calls0).cache =
        { curvilinearFrame E (localFrame E dSurface c) with covariance := none }) := by
  unfold outputStage at hres ⊢
  by_cases hdir : directionMismatch c
  · rw [if_pos hdir]
    exact Or.inl ⟨rfl, rfl⟩
  · rw [if_neg hdir] at hres ⊢
    simp only [] at hres ⊢
    by_cases hbnd : outOfBounds E dSurface (localFrame E dSurface c)
    · rw [if_pos hbnd]
      exact Or.inr (Or.inl ⟨rfl, rfl⟩)
    · rw [if_neg hbnd] at hres ⊢
      split_ifs at hres ⊢ <;> exact Or.inr (Or.inr ⟨rfl, rfl⟩)

/-- Where a call returns, and with which cache: at the conversion, in the
surface dispatch, or in the output stage run on the cache of the dispatch. -/
theorem propagate_exit_cases (E : RungeKuttaEngine T BC) (navigationStep : Int)
    (pCache : PropagationCache BC) (parametersT : T) (dSurface : Surface BC) :
    ((E.propagateRungeKuttaT navigationStep pCache parametersT dSurface).returnLine = 16 ∧
      (E.propagateRungeKuttaT navigationStep pCache parametersT dSurface).cache =
        afterConversion E pCache parametersT) ∨
    (surfaceDispatch E navigationStep (afterConversion E pCache parametersT) dSurface
        [Call.transformLocalToGlobal pCache.useJacobian true] =
      .error (E.propagateRungeKuttaT navigationStep pCache parametersT dSurface)) ∨
    (∃ pCache0 calls0,
      surfaceDispatch E navigationStep (afterConversion E pCache parametersT) dSurface
        [Call.transformLocalToGlobal pCache.useJacobian true] = .ok (pCache0, calls0) ∧
      E.propagateRungeKuttaT navigationStep pCache parametersT dSurface =
        outputStage E parametersT dSurface pCache0 calls0) := by
  by_cases hconv :
      (E.transformLocalToGlobal pCache.useJacobian parametersT pCache.pVector).1 = false
  · rw [propagate_conversion_failed E navigationStep pCache parametersT dSurface hconv]
    exact Or.inl ⟨rfl, rfl⟩
  · simp only [Bool.not_eq_false] at hconv
    right
    cases hk : surfaceDispatch E navigationStep (afterConversion E pCache parametersT) dSurface
        [Call.transformLocalToGlobal pCache.useJacobian true] with
    | error o =>
      left
      rw [propagate_of_error E navigationStep pCache parametersT dSurface o hconv hk]
    | ok x =>
      right
      exact ⟨x.1, x.2, rfl,
        propagate_of_ok E navigationStep pCache parametersT dSurface x.1 x.2 hconv hk⟩

theorem surfaceDispatch_error_line (E : RungeKuttaEngine T BC) (navigationStep : Int)
    (pCache : PropagationCache BC) (dSurface : Surface BC) (calls : List Call)
    (o : Outcome BC) (h : surfaceDispatch E navigationStep pCache dSurface calls = .error o) :
    o.returnLine ≠ 133 ∧ o.returnLine ≠ 151 := by
  unfold surfaceDispatch at h
  simp only [] at h
  split_ifs at h <;> (cases h; exact ⟨by simp, by simp⟩)

/-- C11 (as the code has it): the function leaves no matrix of its own in the
cache on a failing path. When the kernel does not write the covariance field:
a call that returns false at the covariance check (line 151) leaves the
covariance null; a call that returns false anywhere else leaves the covariance
the cache had before the call; hence every failing call leaves it null if the
cache entered the call with a null covariance. -/
theorem C11_failure_covariance {T BC : Type} (E : RungeKuttaEngine T BC)
    (navigationStep : Int) (pCache : PropagationCache BC) (parametersT : T)
    (dSurface : Surface BC)
    (hkernel : ∀ n c k s, (E.propagateWithJacobian n c k s).2.1.covariance = c.covariance)
    (hres : (E.propagateRungeKuttaT navigationStep pCache parametersT dSurface).result = false) :
    ((E.propagateRungeKuttaT navigationStep pCache parametersT dSurface).returnLine = 151 →
      (E.propagateRungeKuttaT navigationStep pCache parametersT dSurface).cache.covariance
        = none) ∧
    ((E.propagateRungeKuttaT navigationStep pCache parametersT dSurface).returnLine ≠ 151 →
      (E.propagateRungeKuttaT navigationStep pCache parametersT dSurface).cache.covariance
        = pCache.covariance) ∧
    (pCache.covariance = none →
      (E.propagateRungeKuttaT navigationStep pCache parametersT dSurface).cache.covariance
        = none) := by
  have hpres := surfaceDispatch_preserves (fun c => c.covariance) E hkernel navigationStep
    (afterConversion E pCache parametersT) dSurface
    [Call.transformLocalToGlobal pCache.useJacobian true]
  have hac : (afterConversion E pCache parametersT).covariance = pCache.covariance := rfl
  have key :
      ((E.propagateRungeKuttaT navigationStep pCache parametersT dSurface).returnLine = 151 ∧
        (E.propagateRungeKuttaT navigationStep pCache parametersT dSurface).cache.covariance
          = none) ∨
      ((E.propagateRungeKuttaT navigationStep pCache parametersT dSurface).returnLine ≠ 151 ∧
        (E.propagateRungeKuttaT navigationStep pCache parametersT dSurface).cache.covariance
          = pCache.covariance) := by
    rcases propagate_exit_cases E navigationStep pCache parametersT dSurface with
      ⟨hl, hc⟩ | hk | ⟨c, calls0, hk, heq⟩
    · right
      rw [hl, hc]
      exact ⟨by decide, rfl⟩
    · right
      exact ⟨(surfaceDispatch_error_line E navigationStep _ dSurface _ _ hk).2,
        (hpres.1 _ hk).trans hac⟩
    · have hc0 : c.covariance = pCache.covariance := (hpres.2 c calls0 hk).trans hac
      rw [heq] at hres ⊢
      rcases outputStage_failure E parametersT dSurface c calls0 hres with
        ⟨hl, hc⟩ | ⟨hl, hc⟩ | ⟨hl, hc⟩
      · right
        rw [hl, hc]
        exact ⟨by decide, hc0⟩
      · right
        rw [hl, hc, localFrame_covariance]
        exact ⟨by decide, hc0⟩
      · left
        rw [hl, hc]
        exact ⟨rfl, rfl⟩
  refine ⟨?_, ?_, ?_⟩
  · intro h
    rcases key with ⟨_, hc⟩ | ⟨hl, _⟩
    · exact hc
    · exact absurd h hl
  · intro h
    rcases key with ⟨hl, _⟩ | ⟨_, hc⟩
    · exact absurd hl h
    · exact hc
  · intro h
    rcases key with ⟨_, hc⟩ | ⟨_, hc⟩
    · exact hc
    · rw [hc, h]

/-- Witness of C11: a failing kernel in front of a cone, on a cache that enters
with a null covariance. -/
theorem C11_failure_covariance_witness :
    (∀ (n : Int) (c : PropagationCache Bool) (k : Nat) (s : List ℚ),
      ((demoEngine true false 1 true 1).propagateWithJacobian n c k s).2.1.covariance
        = c.covariance) ∧
    ((demoEngine true false 1 true 1).propagateRungeKuttaT 0
      (demoCache 1 true false false true) () (demoSurface .Cone 1)).result = false ∧
    (demoCache 1 true false false true).covariance = none ∧
    ((demoEngine true false 1 true 1).propagateRungeKuttaT 0
      (demoCache 1 true false false true) () (demoSurface .Cone 1)).cache.covariance = none :=
  ⟨fun _ _ _ _ => rfl, rfl, rfl,
    (C11_failure_covariance (demoEngine true false 1 true 1) 0
      (demoCache 1 true false false true) () (demoSurface .Cone 1)
      (fun _ _ _ _ => rfl) rfl).2.2 rfl⟩

/-- Counterexample to C11 as stated: a cache that enters the call holding a
covariance matrix and an input conversion that fails; the call returns false
and the matrix is still in the cache. -/
theorem C11_counterexample :
    ((demoEngine false true 1 true 1).propagateRungeKuttaT 0
      { demoCache 1 true false false true with covariance := some (fun _ _ => 1) } ()
      (demoSurface .Plane 1)).result = false ∧
    ((demoEngine false true 1 true 1).propagateRungeKuttaT 0
      { demoCache 1 true false false true with covariance := some (fun _ _ => 1) } ()
      (demoSurface .Plane 1)).returnLine = 16 ∧
    ((demoEngine false true 1 true 1).propagateRungeKuttaT 0
      { demoCache 1 true false false true with covariance := some (fun _ _ => 1) } ()
      (demoSurface .Plane 1)).cache.covariance ≠ none := by
  refine ⟨rfl, rfl, ?_⟩
  intro h
  have h2 : ((demoEngine false true 1 true 1).propagateRungeKuttaT 0
      { demoCache 1 true false false true with covariance := some (fun _ _ => 1) } ()
      (demoSurface .Plane 1)).cache.covariance.isSome = true := rfl
  rw [h] at h2
  exact absurd h2 (by decide)

theorem scaleEntry_apply (P : Nat → ℚ) (i j : Nat) (p : ℚ) :
    scaleEntry P i p j = if j = i then P i * p else P j := by
  unfold scaleEntry
  rw [Function.update_apply]

theorem normalizeJacobian_entry (c : PropagationCache BC) (huse : c.useJacobian = true)
    (i : Nat) :
    (normalizeJacobian c).pVector i =
      if 35 ≤ i ∧ i ≤ 40 then c.pVector i * (1 / c.pVector 6) else c.pVector i := by
  unfold normalizeJacobian
  rw [if_pos huse]
  simp only [scaleEntry_apply]
  by_cases h : 35 ≤ i ∧ i ≤ 40
  · rw [if_pos h]
    obtain ⟨h1, h2⟩ := h
    interval_cases i <;> simp
  · rw [if_neg h]
    have h35 : i ≠ 35 := by omega
    have h36 : i ≠ 36 := by omega
    have h37 : i ≠ 37 := by omega
    have h38 : i ≠ 38 := by omega
    have h39 : i ≠ 39 := by omega
    have h40 : i ≠ 40 := by omega
    simp [h35, h36, h37, h38, h39, h40]

theorem normalizeJacobian_off (c : PropagationCache BC) (huse : c.useJacobian = false) :
    normalizeJacobian c = c := by
  unfold normalizeJacobian
  simp [huse]

theorem normalizeJacobian_arrays (c : PropagationCache BC) :
    (normalizeJacobian c).parameters = c.parameters ∧
    (normalizeJacobian c).jacobian = c.jacobian ∧
    (normalizeJacobian c).covariance = c.covariance := by
  unfold normalizeJacobian
  split_ifs <;> exact ⟨rfl, rfl, rfl⟩

theorem decideFrame_arrays (c : PropagationCache BC) :
    (decideFrame c).pVector = c.pVector ∧ (decideFrame c).parameters = c.parameters ∧
    (decideFrame c).jacobian = c.jacobian ∧ (decideFrame c).useJacobian = c.useJacobian := by
  unfold decideFrame
  split_ifs <;> exact ⟨rfl, rfl, rfl, rfl⟩

/-- C12 (as the code has it): the Jacobian normalisation of lines 109-118, run on
the cache the kernel stage left once the direction check has passed. With
`useJacobian` set, the six entries `pVector[35]` to `pVector[40]` are each
multiplied by `1 / pVector[6]`, which is the inverse of `pVector[6]` when that
is not zero, and every other entry, `pVector[41]` (the last of the 42 numbers)
included, is left as the kernel produced it; with `useJacobian` unset the cache
is unchanged. The vector so obtained, with the parameters and the Jacobian
the kernel left, is what `transformGlobalToLocal` is called on. -/
theorem C12_jacobian_normalization {T BC : Type} (E : RungeKuttaEngine T BC)
    (dSurface : Surface BC) (pCache0 : PropagationCache BC) :
    (pCache0.useJacobian = true →
      ∀ i, (normalizeJacobian pCache0).pVector i =
        if 35 ≤ i ∧ i ≤ 40 then pCache0.pVector i * (1 / pCache0.pVector 6)
        else pCache0.pVector i) ∧
    (pCache0.useJacobian = false → normalizeJacobian pCache0 = pCache0) ∧
    (pCache0.pVector 6 ≠ 0 → pCache0.pVector 6 * (1 / pCache0.pVector 6) = 1) ∧
    (localFrame E dSurface pCache0).pVector =
      (E.transformGlobalToLocal dSurface
        (frameJacobian (decideFrame (normalizeJacobian pCache0)))
        (normalizeJacobian pCache0).pVector pCache0.parameters pCache0.jacobian).1 := by
  refine ⟨fun h i => normalizeJacobian_entry pCache0 h i,
    normalizeJacobian_off pCache0, fun h => mul_one_div_cancel h, ?_⟩
  obtain ⟨h1, h2, _⟩ := normalizeJacobian_arrays pCache0
  obtain ⟨d1, d2, d3, _⟩ := decideFrame_arrays (normalizeJacobian pCache0)
  unfold localFrame
  simp only [d1, d2, d3, h1, h2]

/-- Witness of C12: a kernel state whose 42 numbers are all 2; the entries 35 to
40 become 1, the entries 34 and 41 stay 2. -/
theorem C12_jacobian_normalization_witness :
    (demoCache 1 true false false true).useJacobian = true ∧
    (normalizeJacobian (demoCache 1 true false false true)).pVector 35 = 1 ∧
    (normalizeJacobian (demoCache 1 true false false true)).pVector 40 = 1 ∧
    (normalizeJacobian (demoCache 1 true false false true)).pVector 34 = 2 ∧
    (normalizeJacobian (demoCache 1 true false false true)).pVector 41 = 2 := by
  have h := (C12_jacobian_normalization (demoEngine true true 1 true 1)
    (demoSurface .Line 1) (demoCache 1 true false false true)).1 rfl
  refine ⟨rfl, ?_, ?_, ?_, ?_⟩
  · rw [h 35]; decide!
  · rw [h 40]; decide!
  · rw [h 34]; decide!
  · rw [h 41]; decide!

/-- Counterexample to C12 as stated: Jacobian transport towards a line surface,
with a kernel state whose numbers are all 2 and conversions that leave the
state alone. On the successful return the last of the 42 numbers,
`pVector[41]`, is still 2 (not multiplied by 1/2), while `pVector[35]`, which is
not among the last six, is 1; the kernel stage had left 2 in every entry. -/
theorem C12_counterexample :
    ((demoEngine true true 1 true 1).propagateRungeKuttaT 0
      (demoCache 1 true false false true) () (demoSurface .Line 1)).result = true ∧
    surfaceDispatch (demoEngine true true 1 true 1) 0
      (afterConversion (demoEngine true true 1 true 1) (demoCache 1 true false false true) ())
      (demoSurface .Line 1) [Call.transformLocalToGlobal true true] =
      .ok ({ demoCache 1 true false false true with step := 1 },
        [Call.transformLocalToGlobal true true,
          Call.propagateWithJacobian 0 [1, 2, 3, 0, 0, 1] true]) ∧
    (∀ i, ({ demoCache 1 true false false true with step := 1 } :
      PropagationCache Bool).pVector i = 2) ∧
    ((demoEngine true true 1 true 1).propagateRungeKuttaT 0
      (demoCache 1 true false false true) () (demoSurface .Line 1)).cache.pVector 41 = 2 ∧
    ((demoEngine true true 1 true 1).propagateRungeKuttaT 0
      (demoCache 1 true false false true) () (demoSurface .Line 1)).cache.pVector 35 = 1 ∧
    ((demoEngine true true 1 true 1).propagateRungeKuttaT 0
      (demoCache 1 true false false true) () (demoSurface .Line 1)).cache.pVector 36 = 1 := by
  refine ⟨by decide!, rfl, fun _ => rfl, by decide!, by decide!, by decide!⟩

theorem frameCalls_append (a b : List Call) :
    frameCalls (a ++ b) = frameCalls a ++ frameCalls b := by
  induction a with
  | nil => rfl
  | cons x xs ih => cases x <;> simp [frameCalls, ih]

theorem surfaceDispatch_frameCalls (E : RungeKuttaEngine T BC) (navigationStep : Int)
    (pCache : PropagationCache BC) (dSurface : Surface BC) (calls : List Call) :
    frameCalls (stageCalls (surfaceDispatch E navigationStep pCache dSurface calls)) =
      frameCalls calls := by
  unfold surfaceDispatch
  simp only []
  split_ifs <;> simp [stageCalls, frameCalls, frameCalls_append]

theorem outputStage_frameCalls (E : RungeKuttaEngine T BC) (parametersT : T)
    (dSurface : Surface BC) (c : PropagationCache BC) (calls0 : List Call)
    (hdir : ¬ directionMismatch c) :
    frameCalls (outputStage E parametersT dSurface c calls0).calls =
      frameCalls calls0 ++ [frameJacobian (decideFrame (normalizeJacobian c))] := by
  unfold outputStage
  rw [if_neg hdir]
  simp only []
  split_ifs <;> simp [frameCalls, frameCalls_append]

theorem outputStage_returnCurvilinear (E : RungeKuttaEngine T BC) (parametersT : T)
    (dSurface : Surface BC) (c : PropagationCache BC) (calls0 : List Call)
    (hdir : ¬ directionMismatch c) :
    (outputStage E parametersT dSurface c calls0).cache.returnCurvilinear =
      (c.maxPathLimit || c.returnCurvilinear) := by
  have hL := (localFrame_flags E dSurface c).2.2
  have hK := (curvilinearFrame_useJacobian E (localFrame E dSurface c)).2.2
  unfold outputStage
  rw [if_neg hdir]
  simp only []
  split_ifs <;> simp [hL, hK]

/-- The cache of a successful output stage. -/
theorem outputStage_success_cache (E : RungeKuttaEngine T BC) (parametersT : T)
    (dSurface : Surface BC) (c : PropagationCache BC) (calls0 : List Call)
    (hres : (outputStage E parametersT dSurface c calls0).result = true) :
    (c.useJacobian = true ∧
      ¬ degenerate (transportedCovariance E parametersT
        (curvilinearFrame E (localFrame E dSurface c))) ∧
      (outputStage E parametersT dSurface c calls0).cache =
        { curvilinearFrame E (localFrame E dSurface c) with
          covariance := some (transportedCovariance E parametersT
            (curvilinearFrame E (localFrame E dSurface c))) }) ∨
    (c.useJacobian = false ∧
      (outputStage E parametersT dSurface c calls0).cache =
        curvilinearFrame E (localFrame E dSurface c)) := by
  have hu : (curvilinearFrame E (localFrame E dSurface c)).useJacobian = c.useJacobian := by
    rw [(curvilinearFrame_useJacobian E _).1, (localFrame_flags E dSurface c).1]
  obtain ⟨hdir, hbnd, _⟩ := outputStage_success E parametersT dSurface c calls0 hres
  unfold outputStage at hres ⊢
  rw [if_neg hdir] at hres ⊢
  simp only [] at hres ⊢
  rw [if_neg hbnd] at hres ⊢
  by_cases huse : (curvilinearFrame E (localFrame E dSurface c)).useJacobian = true
  · rw [if_pos huse] at hres ⊢
    by_cases hdeg : degenerate (transportedCovariance E parametersT
        (curvilinearFrame E (localFrame E dSurface c)))
    · rw [if_pos hdeg] at hres
      simp at hres
    · rw [if_neg hdeg]
      exact Or.inl ⟨hu ▸ huse, hdeg, rfl⟩
  · rw [if_neg huse]
    simp only [Bool.not_eq_true] at huse
    exact Or.inr ⟨hu ▸ huse, rfl⟩

theorem frameJacobian_path_limit (c : PropagationCache BC) (hmax : c.maxPathLimit = true) :
    frameJacobian (decideFrame (normalizeJacobian c)) = false := by
  have h := (normalizeJacobian_flags c).2.2.2
  unfold frameJacobian decideFrame
  rw [h, hmax]
  simp

theorem outputStage_curvilinear_call (E : RungeKuttaEngine T BC) (parametersT : T)
    (dSurface : Surface BC) (c : PropagationCache BC) (calls0 : List Call)
    (hres : (outputStage E parametersT dSurface c calls0).result = true)
    (hrc : (localFrame E dSurface c).returnCurvilinear = true) :
    Call.transformGlobalToCurvilinear c.useJacobian ∈
      (outputStage E parametersT dSurface c calls0).calls := by
  have hu := (localFrame_flags E dSurface c).1
  obtain ⟨hdir, hbnd, _⟩ := outputStage_success E parametersT dSurface c calls0 hres
  unfold outputStage
  rw [if_neg hdir]
  simp only []
  rw [if_neg hbnd, if_pos hrc, hu]
  split_ifs <;> simp

theorem curvilinearFrame_on (E : RungeKuttaEngine T BC) (L : PropagationCache BC)
    (hrc : L.returnCurvilinear = true) :
    (curvilinearFrame E L).parameters =
      (E.transformGlobalToCurvilinear L.useJacobian L.pVector L.parameters L.jacobian).2.1 ∧
    (curvilinearFrame E L).jacobian =
      (E.transformGlobalToCurvilinear L.useJacobian L.pVector L.parameters L.jacobian).2.2 := by
  unfold curvilinearFrame
  rw [if_pos hrc]
  exact ⟨rfl, rfl⟩

/-- C13: the output frame under the path limit. On a supported surface on which
the conversion and the kernel succeeded, leaving the cache `pCache0` with
`maxPathLimit` set, and on which the direction check passed: `returnCurvilinear`
is true on return; `transformGlobalToLocal` is called once, with the Jacobian
flag `false`; and on a successful return `transformGlobalToCurvilinear` has been
called, the parameters and the Jacobian of the cache are those it produced from
the global state (and the arrays) left by the global-to-local conversion, and
with `useJacobian` set the covariance of the cache is the matrix
`newCovarianceMatrix` built from that curvilinear Jacobian and the covariance of
the input parameters. -/
theorem C13_path_limit_output_frame {T BC : Type} (E : RungeKuttaEngine T BC)
    (navigationStep : Int) (pCache : PropagationCache BC) (parametersT : T)
    (dSurface : Surface BC) (pCache0 : PropagationCache BC) (calls0 : List Call)
    (hconv : (E.transformLocalToGlobal pCache.useJacobian parametersT pCache.pVector).1 = true)
    (hk : surfaceDispatch E navigationStep (afterConversion E pCache parametersT) dSurface
      [Call.transformLocalToGlobal pCache.useJacobian true] = .ok (pCache0, calls0))
    (hdir : ¬ directionMismatch pCache0)
    (hmax : pCache0.maxPathLimit = true) :
    (E.propagateRungeKuttaT navigationStep pCache parametersT dSurface).cache.returnCurvilinear
      = true ∧
    frameCalls (E.propagateRungeKuttaT navigationStep pCache parametersT dSurface).calls
      = [false] ∧
    ((E.propagateRungeKuttaT navigationStep pCache parametersT dSurface).result = true →
      Call.transformGlobalToCurvilinear pCache0.useJacobian ∈
        (E.propagateRungeKuttaT navigationStep pCache parametersT dSurface).calls ∧
      (E.propagateRungeKuttaT navigationStep pCache parametersT dSurface).cache.parameters =
        (E.transformGlobalToCurvilinear pCache0.useJacobian
          (localFrame E dSurface pCache0).pVector (localFrame E dSurface pCache0).parameters
          (localFrame E dSurface pCache0).jacobian).2.1 ∧
      (E.propagateRungeKuttaT navigationStep pCache parametersT dSurface).cache.jacobian =
        (E.transformGlobalToCurvilinear pCache0.useJacobian
          (localFrame E dSurface pCache0).pVector (localFrame E dSurface pCache0).parameters
          (localFrame E dSurface pCache0).jacobian).2.2 ∧
      (pCache0.useJacobian = true →
        (E.propagateRungeKuttaT navigationStep pCache parametersT dSurface).cache.covariance =
          some (E.newCovarianceMatrix
            (E.transformGlobalToCurvilinear pCache0.useJacobian
              (localFrame E dSurface pCache0).pVector (localFrame E dSurface pCache0).parameters
              (localFrame E dSurface pCache0).jacobian).2.2
            (E.covariance parametersT)))) := by
  have heq := propagate_of_ok E navigationStep pCache parametersT dSurface pCache0 calls0 hconv hk
  have hcalls0 : frameCalls calls0 = [] := by
    have h := surfaceDispatch_frameCalls E navigationStep (afterConversion E pCache parametersT)
      dSurface [Call.transformLocalToGlobal pCache.useJacobian true]
    rw [hk] at h
    exact h
  have hrcL : (localFrame E dSurface pCache0).returnCurvilinear = true := by
    rw [(localFrame_flags E dSurface pCache0).2.2, hmax]
    rfl
  have huL := (localFrame_flags E dSurface pCache0).1
  obtain ⟨hpar, hjac⟩ := curvilinearFrame_on E (localFrame E dSurface pCache0) hrcL
  rw [huL] at hpar hjac
  rw [heq]
  refine ⟨?_, ?_, ?_⟩
  · rw [outputStage_returnCurvilinear E parametersT dSurface pCache0 calls0 hdir, hmax]
    rfl
  · rw [outputStage_frameCalls E parametersT dSurface pCache0 calls0 hdir, hcalls0,
      frameJacobian_path_limit pCache0 hmax]
    rfl
  · intro hres
    refine ⟨outputStage_curvilinear_call E parametersT dSurface pCache0 calls0 hres hrcL,
      ?_, ?_, ?_⟩
    · rcases outputStage_success_cache E parametersT dSurface pCache0 calls0 hres with
        ⟨_, _, hc⟩ | ⟨_, hc⟩ <;> rw [hc] <;> exact hpar
    · rcases outputStage_success_cache E parametersT dSurface pCache0 calls0 hres with
        ⟨_, _, hc⟩ | ⟨_, hc⟩ <;> rw [hc] <;> exact hjac
    · intro huse
      rcases outputStage_success_cache E parametersT dSurface pCache0 calls0 hres with
        ⟨_, _, hc⟩ | ⟨hno, _⟩
      · rw [hc]
        show some (transportedCovariance E parametersT
          (curvilinearFrame E (localFrame E dSurface pCache0))) = _
        unfold transportedCovariance
        rw [hjac]
      · rw [huse] at hno
        exact absurd hno (by decide)

/-- Witness of C13: Jacobian transport towards a line surface on a cache whose
`maxPathLimit` is set. -/
theorem C13_path_limit_output_frame_witness :
    ((demoEngine true true 1 true 1).transformLocalToGlobal
        (demoCache 1 true true false true).useJacobian ()
        (demoCache 1 true true false true).pVector).1 = true ∧
    surfaceDispatch (demoEngine true true 1 true 1) 0
      (afterConversion (demoEngine true true 1 true 1) (demoCache 1 true true false true) ())
      (demoSurface .Line 1)
      [Call.transformLocalToGlobal (demoCache 1 true true false true).useJacobian true] =
      .ok ({ demoCache 1 true true false true with step := 1 },
        [Call.transformLocalToGlobal true true,
          Call.propagateWithJacobian 0 [1, 2, 3, 0, 0, 1] true]) ∧
    ¬ directionMismatch { demoCache 1 true true false true with step := 1 } ∧
    ({ demoCache 1 true true false true with step := 1 } :
      PropagationCache Bool).maxPathLimit = true ∧
    ((demoEngine true true 1 true 1).propagateRungeKuttaT 0
      (demoCache 1 true true false true) () (demoSurface .Line 1)).cache.returnCurvilinear
      = true ∧
    frameCalls ((demoEngine true true 1 true 1).propagateRungeKuttaT 0
      (demoCache 1 true true false true) () (demoSurface .Line 1)).calls = [false] :=
  have hdir : ¬ directionMismatch { demoCache 1 true true false true with step := 1 } := by
    decide!
  ⟨rfl, rfl, hdir, rfl,
    (C13_path_limit_output_frame (demoEngine true true 1 true 1) 0
      (demoCache 1 true true false true) () (demoSurface .Line 1)
      { demoCache 1 true true false true with step := 1 }
      [Call.transformLocalToGlobal true true,
        Call.propagateWithJacobian 0 [1, 2, 3, 0, 0, 1] true]
      rfl rfl hdir rfl).1,
    (C13_path_limit_output_frame (demoEngine true true 1 true 1) 0
      (demoCache 1 true true false true) () (demoSurface .Line 1)
      { demoCache 1 true true false true with step := 1 }
      [Call.transformLocalToGlobal true true,
        Call.propagateWithJacobian 0 [1, 2, 3, 0, 0, 1] true]
      rfl rfl hdir rfl).2.1⟩

/-- C14: the planar encoding. On a Plane or Disc destination whose input
conversion succeeds the kernel is invoked once, with family code 1 and the
encoding of the placement: with `t` the translation, `n` the third rotation
column and `d = t . n`, the encoding is `(n, d)` when `d` is not negative and
`(-n, -d)` when it is; in both cases the encoded offset is `|d|`, which is not
negative, the encoded normal is `n` or `-n`, and the dot product of the encoded
normal with `t` is the encoded offset. -/
theorem C14_planar_encoding {T BC : Type} (E : RungeKuttaEngine T BC)
    (navigationStep : Int) (pCache : PropagationCache BC) (parametersT : T)
    (dSurface : Surface BC)
    (hconv : (E.transformLocalToGlobal pCache.useJacobian parametersT pCache.pVector).1 = true)
    (hplanar : dSurface.type = .Plane ∨ dSurface.type = .Disc) :
    kernelCalls (E.propagateRungeKuttaT navigationStep pCache parametersT dSurface).calls =
      [(1, planarEncoding dSurface.transform)] ∧
    planarOffset dSurface.transform =
      dSurface.transform 0 3 * dSurface.transform 0 2 +
        dSurface.transform 1 3 * dSurface.transform 1 2 +
        dSurface.transform 2 3 * dSurface.transform 2 2 ∧
    (0 ≤ planarOffset dSurface.transform →
      planarEncoding dSurface.transform =
        [dSurface.transform 0 2, dSurface.transform 1 2, dSurface.transform 2 2,
          planarOffset dSurface.transform]) ∧
    (planarOffset dSurface.transform < 0 →
      planarEncoding dSurface.transform =
        [-dSurface.transform 0 2, -dSurface.transform 1 2, -dSurface.transform 2 2,
          -planarOffset dSurface.transform]) ∧
    ∃ a b c e : ℚ,
      planarEncoding dSurface.transform = [a, b, c, e] ∧
      e = |planarOffset dSurface.transform| ∧ 0 ≤ e ∧
      ((a = dSurface.transform 0 2 ∧ b = dSurface.transform 1 2 ∧ c = dSurface.transform 2 2) ∨
        (a = -dSurface.transform 0 2 ∧ b = -dSurface.transform 1 2 ∧
          c = -dSurface.transform 2 2)) ∧
      a * dSurface.transform 0 3 + b * dSurface.transform 1 3 + c * dSurface.transform 2 3
        = e := by
  refine ⟨propagate_planar_kernelCalls E navigationStep pCache parametersT dSurface hconv
    hplanar, rfl, ?_, ?_, ?_⟩
  · intro h
    unfold planarEncoding
    rw [if_pos h]
  · intro h
    unfold planarEncoding
    rw [if_neg (not_le.mpr h)]
  · by_cases h : 0 ≤ planarOffset dSurface.transform
    · refine ⟨_, _, _, _, ?_, (abs_of_nonneg h).symm, h, Or.inl ⟨rfl, rfl, rfl⟩, ?_⟩
      · unfold planarEncoding
        rw [if_pos h]
      · unfold planarOffset
        ring
    · have hneg : planarOffset dSurface.transform < 0 := not_le.mp h
      refine ⟨_, _, _, _, ?_, (abs_of_neg hneg).symm, by linarith,
        Or.inr ⟨rfl, rfl, rfl⟩, ?_⟩
      · unfold planarEncoding
        rw [if_neg h]
      · unfold planarOffset
        ring

/-- Witness of C14: a disc whose translation `(1, 2, -3)` points against its
normal `(0, 0, 1)`; the kernel receives the normal `(0, 0, -1)` and the
offset 3. -/
theorem C14_planar_encoding_witness :
    ((demoEngine true true 1 true 1).transformLocalToGlobal
        (demoCache 1 false false false true).useJacobian ()
        (demoCache 1 false false false true).pVector).1 = true ∧
    ({ demoSurface .Disc 1 with transform := flippedTransform } : Surface Bool).type
      = .Disc ∧
    planarEncoding flippedTransform = [0, 0, -1, 3] ∧
    kernelCalls ((demoEngine true true 1 true 1).propagateRungeKuttaT 0
      (demoCache 1 false false false true) ()
      { demoSurface .Disc 1 with transform := flippedTransform }).calls =
      [(1, planarEncoding flippedTransform)] :=
  ⟨rfl, rfl, by decide!,
    (C14_planar_encoding (demoEngine true true 1 true 1) 0
      (demoCache 1 false false false true) ()
      { demoSurface .Disc 1 with transform := flippedTransform } rfl (Or.inr rfl)).1⟩

/-- C15: the dispatch on the surface family. On a destination whose input
conversion succeeds, the family code handed to the kernel is 0 for Line and
Perigee, 1 for Plane and Disc, 2 for Cylinder (in each of its one or two
invocations) and 3 for Cone; for Line and Perigee the kernel is invoked once and
the encoding is the translation of the placement followed by its third rotation
column, as they stand in the transform. -/
theorem C15_family_dispatch {T BC : Type} (E : RungeKuttaEngine T BC)
    (navigationStep : Int) (pCache : PropagationCache BC) (parametersT : T)
    (dSurface : Surface BC)
    (hconv : (E.transformLocalToGlobal pCache.useJacobian parametersT pCache.pVector).1 = true) :
    (dSurface.type = .Line ∨ dSurface.type = .Perigee →
      kernelCalls (E.propagateRungeKuttaT navigationStep pCache parametersT dSurface).calls =
        [(0, [dSurface.transform 0 3, dSurface.transform 1 3, dSurface.transform 2 3,
          dSurface.transform 0 2, dSurface.transform 1 2, dSurface.transform 2 2])]) ∧
    (dSurface.type = .Plane ∨ dSurface.type = .Disc →
      kernelCalls (E.propagateRungeKuttaT navigationStep pCache parametersT dSurface).calls =
        [(1, planarEncoding dSurface.transform)]) ∧
    (dSurface.type = .Cylinder →
      kernelCalls (E.propagateRungeKuttaT navigationStep pCache parametersT dSurface).calls
        ≠ [] ∧
      ∀ x ∈ kernelCalls
        (E.propagateRungeKuttaT navigationStep pCache parametersT dSurface).calls, x.1 = 2) ∧
    (dSurface.type = .Cone →
      kernelCalls (E.propagateRungeKuttaT navigationStep pCache parametersT dSurface).calls =
        [(3, coneEncoding dSurface.transform dSurface.tanAlpha pCache.direction)]) := by
  refine ⟨?_, ?_, ?_, ?_⟩
  · intro h
    exact propagate_line_kernelCalls E navigationStep pCache parametersT dSurface hconv h
  · intro h
    exact propagate_planar_kernelCalls E navigationStep pCache parametersT dSurface hconv h
  · intro h
    rw [propagate_cylinder_kernelCalls E navigationStep pCache parametersT dSurface hconv h]
    split_ifs <;> simp
  · intro h
    exact propagate_cone_kernelCalls E navigationStep pCache parametersT dSurface hconv h

/-- Witness of C15: a perigee surface with translation `(1, 2, 3)` and third
rotation column `(0, 0, 1)`. -/
theorem C15_family_dispatch_witness :
    ((demoEngine true true 1 true 1).transformLocalToGlobal
        (demoCache 1 false false false true).useJacobian ()
        (demoCache 1 false false false true).pVector).1 = true ∧
    (demoSurface .Perigee 1).type = .Perigee ∧
    kernelCalls ((demoEngine true true 1 true 1).propagateRungeKuttaT 0
      (demoCache 1 false false false true) () (demoSurface .Perigee 1)).calls =
      [(0, [(demoSurface .Perigee 1).transform 0 3, (demoSurface .Perigee 1).transform 1 3,
        (demoSurface .Perigee 1).transform 2 3, (demoSurface .Perigee 1).transform 0 2,
        (demoSurface .Perigee 1).transform 1 2, (demoSurface .Perigee 1).transform 2 2])] :=
  ⟨rfl, rfl,
    (C15_family_dispatch (demoEngine true true 1 true 1) 0
      (demoCache 1 false false false true) () (demoSurface .Perigee 1) rfl).1 (Or.inr rfl)⟩

/-- C16 (as the code has it): the function works on the cache in place and does
not restore it. When the kernel does not write the local parameters and the
Jacobian: a call that returns false before the global-to-local conversion (at
the input conversion, at a kernel failure, at the exit for other surface types
or at the direction check) leaves both fields as they were before the call; a
call that returns false at the boundary check (line 133) leaves in them what
`transformGlobalToLocal` wrote, and one that returns false at the covariance
check (line 151) what the conversions wrote. -/
theorem C16_failure_output_fields {T BC : Type} (E : RungeKuttaEngine T BC)
    (navigationStep : Int) (pCache : PropagationCache BC) (parametersT : T)
    (dSurface : Surface BC)
    (hkernel : ∀ n c k s,
      (E.propagateWithJacobian n c k s).2.1.parameters = c.parameters ∧
      (E.propagateWithJacobian n c k s).2.1.jacobian = c.jacobian)
    (hres : (E.propagateRungeKuttaT navigationStep pCache parametersT dSurface).result = false) :
    ((E.propagateRungeKuttaT navigationStep pCache parametersT dSurface).returnLine ≠ 133 →
      (E.propagateRungeKuttaT navigationStep pCache parametersT dSurface).returnLine ≠ 151 →
      (E.propagateRungeKuttaT navigationStep pCache parametersT dSurface).cache.parameters
        = pCache.parameters ∧
      (E.propagateRungeKuttaT navigationStep pCache parametersT dSurface).cache.jacobian
        = pCache.jacobian) ∧
    ((E.propagateRungeKuttaT navigationStep pCache parametersT dSurface).returnLine = 133 ∨
        (E.propagateRungeKuttaT navigationStep pCache parametersT dSurface).returnLine = 151 →
      ∃ pCache0 calls0,
        surfaceDispatch E navigationStep (afterConversion E pCache parametersT) dSurface
          [Call.transformLocalToGlobal pCache.useJacobian true] = .ok (pCache0, calls0) ∧
        ((E.propagateRungeKuttaT navigationStep pCache parametersT dSurface).returnLine = 133 →
          (E.propagateRungeKuttaT navigationStep pCache parametersT dSurface).cache.parameters
            = (localFrame E dSurface pCache0).parameters ∧
          (E.propagateRungeKuttaT navigationStep pCache parametersT dSurface).cache.jacobian
            = (localFrame E dSurface pCache0).jacobian) ∧
        ((E.propagateRungeKuttaT navigationStep pCache parametersT dSurface).returnLine = 151 →
          (E.propagateRungeKuttaT navigationStep pCache parametersT dSurface).cache.parameters
            = (curvilinearFrame E (localFrame E dSurface pCache0)).parameters ∧
          (E.propagateRungeKuttaT navigationStep pCache parametersT dSurface).cache.jacobian
            = (curvilinearFrame E (localFrame E dSurface pCache0)).jacobian)) := by
  have hpar := surfaceDispatch_preserves (fun c => c.parameters) E
    (fun n c k s => (hkernel n c k s).1) navigationStep
    (afterConversion E pCache parametersT) dSurface
    [Call.transformLocalToGlobal pCache.useJacobian true]
  have hjac := surfaceDispatch_preserves (fun c => c.jacobian) E
    (fun n c k s => (hkernel n c k s).2) navigationStep
    (afterConversion E pCache parametersT) dSurface
    [Call.transformLocalToGlobal pCache.useJacobian true]
  have hap : (afterConversion E pCache parametersT).parameters = pCache.parameters := rfl
  have haj : (afterConversion E pCache parametersT).jacobian = pCache.jacobian := rfl
  rcases propagate_exit_cases E navigationStep pCache parametersT dSurface with
    ⟨hl, hc⟩ | hk | ⟨c, calls0, hk, heq⟩
  · refine ⟨fun _ _ => by rw [hc]; exact ⟨rfl, rfl⟩, ?_⟩
    rw [hl]
    rintro (h | h) <;> simp at h
  · have hline := surfaceDispatch_error_line E navigationStep _ dSurface _ _ hk
    refine ⟨fun _ _ => ⟨(hpar.1 _ hk).trans hap, (hjac.1 _ hk).trans haj⟩, ?_⟩
    rintro (h | h)
    · exact absurd h hline.1
    · exact absurd h hline.2
  · have hp0 : c.parameters = pCache.parameters := (hpar.2 c calls0 hk).trans hap
    have hj0 : c.jacobian = pCache.jacobian := (hjac.2 c calls0 hk).trans haj
    rw [heq] at hres ⊢
    rcases outputStage_failure E parametersT dSurface c calls0 hres with
      ⟨hl, hc⟩ | ⟨hl, hc⟩ | ⟨hl, hc⟩
    · refine ⟨fun _ _ => by rw [hc]; exact ⟨hp0, hj0⟩, ?_⟩
      rw [hl]
      rintro (h | h) <;> simp at h
    · refine ⟨fun h _ => absurd hl h, fun _ => ⟨c, calls0, hk, ?_, ?_⟩⟩
      · intro _
        rw [hc]
        exact ⟨rfl, rfl⟩
      · rw [hl]
        intro h
        simp at h
    · refine ⟨fun _ h => absurd hl h, fun _ => ⟨c, calls0, hk, ?_, ?_⟩⟩
      · rw [hl]
        intro h
        simp at h
      · intro _
        rw [hc]
        exact ⟨rfl, rfl⟩

/-- Witness of C16: a kernel failure in front of a cylinder; parameters and
Jacobian are those of the cache before the call. -/
theorem C16_failure_output_fields_witness :
    (∀ (n : Int) (c : PropagationCache Bool) (k : Nat) (s : List ℚ),
      ((demoEngine true false 1 true 1).propagateWithJacobian n c k s).2.1.parameters
        = c.parameters ∧
      ((demoEngine true false 1 true 1).propagateWithJacobian n c k s).2.1.jacobian
        = c.jacobian) ∧
    ((demoEngine true false 1 true 1).propagateRungeKuttaT 0
      (demoCache 1 true false false true) () (demoSurface .Cylinder 1)).result = false ∧
    ((demoEngine true false 1 true 1).propagateRungeKuttaT 0
      (demoCache 1 true false false true) () (demoSurface .Cylinder 1)).returnLine ≠ 133 ∧
    ((demoEngine true false 1 true 1).propagateRungeKuttaT 0
      (demoCache 1 true false false true) () (demoSurface .Cylinder 1)).returnLine ≠ 151 ∧
    (((demoEngine true false 1 true 1).propagateRungeKuttaT 0
      (demoCache 1 true false false true) () (demoSurface .Cylinder 1)).cache.parameters
        = (demoCache 1 true false false true).parameters ∧
      ((demoEngine true false 1 true 1).propagateRungeKuttaT 0
      (demoCache 1 true false false true) () (demoSurface .Cylinder 1)).cache.jacobian
        = (demoCache 1 true false false true).jacobian) :=
  ⟨fun _ _ _ _ => ⟨rfl, rfl⟩, rfl, by decide!, by decide!,
    (C16_failure_output_fields (demoEngine true false 1 true 1) 0
      (demoCache 1 true false false true) () (demoSurface .Cylinder 1)
      (fun _ _ _ _ => ⟨rfl, rfl⟩) rfl).1 (by decide!) (by decide!)⟩

/-- Counterexample to C16 as stated: Jacobian transport towards a line surface
with a transported covariance that is zero throughout. The call returns false
at the covariance check, after the global-to-local conversion has written the
local parameters: the cache entered with 9 in `parameters[0]` and returns
with 0. -/
theorem C16_counterexample :
    ((demoEngine true true 1 true 0).propagateRungeKuttaT 0
      (demoCache 1 true false false false) () (demoSurface .Line 1)).result = false ∧
    ((demoEngine true true 1 true 0).propagateRungeKuttaT 0
      (demoCache 1 true false false false) () (demoSurface .Line 1)).returnLine = 151 ∧
    (demoCache 1 true false false false).parameters 0 = 9 ∧
    ((demoEngine true true 1 true 0).propagateRungeKuttaT 0
      (demoCache 1 true false false false) () (demoSurface .Line 1)).cache.parameters 0 = 0 ∧
    ((demoEngine true true 1 true 0).propagateRungeKuttaT 0
      (demoCache 1 true false false false) () (demoSurface .Line 1)).cache.parameters ≠
      (demoCache 1 true false false false).parameters := by
  have h0 : ((demoEngine true true 1 true 0).propagateRungeKuttaT 0
      (demoCache 1 true false false false) () (demoSurface .Line 1)).cache.parameters 0 = 0 := by
    decide!
  refine ⟨by decide!, by decide!, rfl, h0, ?_⟩
  intro h
  rw [h] at h0
  exact absurd h0 (by decide!)

/-- C17: the cone encoding. On a Cone destination whose input conversion
succeeds the kernel is invoked exactly once, whatever it returns, with family
code 3 and the encoding made of the translation of the placement, its third
rotation column, `k = tanAlpha * tanAlpha + 1`, the requested direction of the
cache and the selector 0; and `k` is at least 1. -/
theorem C17_cone_encoding {T BC : Type} (E : RungeKuttaEngine T BC)
    (navigationStep : Int) (pCache : PropagationCache BC) (parametersT : T)
    (dSurface : Surface BC)
    (hconv : (E.transformLocalToGlobal pCache.useJacobian parametersT pCache.pVector).1 = true)
    (hcone : dSurface.type = .Cone) :
    kernelCalls (E.propagateRungeKuttaT navigationStep pCache parametersT dSurface).calls =
      [(3, [dSurface.transform 0 3, dSurface.transform 1 3, dSurface.transform 2 3,
        dSurface.transform 0 2, dSurface.transform 1 2, dSurface.transform 2 2,
        dSurface.tanAlpha * dSurface.tanAlpha + 1, pCache.direction, 0])] ∧
    1 ≤ dSurface.tanAlpha * dSurface.tanAlpha + 1 :=
  ⟨propagate_cone_kernelCalls E navigationStep pCache parametersT dSurface hconv hcone,
    by nlinarith [mul_self_nonneg dSurface.tanAlpha]⟩

/-- Witness of C17: a cone of tangent 2 in front of a kernel that fails, and in
front of one that succeeds: one invocation each, with `k = 5`. -/
theorem C17_cone_encoding_witness :
    (((demoEngine true false 1 true 1).transformLocalToGlobal
        (demoCache 1 false false false true).useJacobian ()
        (demoCache 1 false false false true).pVector).1 = true ∧
      (demoSurface .Cone 1).type = .Cone ∧
      kernelCalls ((demoEngine true false 1 true 1).propagateRungeKuttaT 0
        (demoCache 1 false false false true) () (demoSurface .Cone 1)).calls =
        [(3, [1, 2, 3, 0, 0, 1, 5, 1, 0])]) ∧
    kernelCalls ((demoEngine true true 1 true 1).propagateRungeKuttaT 0
      (demoCache 1 false false false true) () (demoSurface .Cone 1)).calls =
      [(3, [1, 2, 3, 0, 0, 1, 5, 1, 0])] := by
  have h1 := (C17_cone_encoding (demoEngine true false 1 true 1) 0
    (demoCache 1 false false false true) () (demoSurface .Cone 1) rfl rfl).1
  have h2 := (C17_cone_encoding (demoEngine true true 1 true 1) 0
    (demoCache 1 false false false true) () (demoSurface .Cone 1) rfl rfl).1
  have he : [(demoSurface .Cone 1).transform 0 3, (demoSurface .Cone 1).transform 1 3,
      (demoSurface .Cone 1).transform 2 3, (demoSurface .Cone 1).transform 0 2,
      (demoSurface .Cone 1).transform 1 2, (demoSurface .Cone 1).transform 2 2,
      (demoSurface .Cone 1).tanAlpha * (demoSurface .Cone 1).tanAlpha + 1,
      (demoCache 1 false false false true).direction, 0] = [1, 2, 3, 0, 0, 1, 5, 1, 0] := by
    decide!
  rw [he] at h1 h2
  exact ⟨⟨rfl, rfl, h1⟩, h2⟩

theorem curvilinearFrame_covariance (E : RungeKuttaEngine T BC) (c : PropagationCache BC) :
    (curvilinearFrame E c).covariance = c.covariance := by
  unfold curvilinearFrame
  split_ifs <;> rfl

theorem positive_of_not_degenerate (cov : Nat → Nat → ℚ) (h : ¬ degenerate cov)
    (i : Nat) (hi : i < 5) : 0 < cov i i := by
  by_contra hcon
  exact h (degenerate_of_entry cov i hi (not_lt.mp hcon))

/-- C18: the success postcondition on the covariance. Whenever the call returns
true and `useJacobian` is set in the cache on return, the covariance of the
cache is non-null, it is the matrix `newCovarianceMatrix` returns for the
Jacobian held by the cache on return and the covariance of the input
parameters, and its entries (0,0) to (4,4) are strictly positive. Whenever the
call returns true and `useJacobian` is unset, the function has not written the
covariance: with a kernel that leaves the field alone it is the value the cache
had before the call. -/
theorem C18_success_covariance {T BC : Type} (E : RungeKuttaEngine T BC)
    (navigationStep : Int) (pCache : PropagationCache BC) (parametersT : T)
    (dSurface : Surface BC)
    (hres : (E.propagateRungeKuttaT navigationStep pCache parametersT dSurface).result = true) :
    ((E.propagateRungeKuttaT navigationStep pCache parametersT dSurface).cache.useJacobian
        = true →
      ∃ cov,
        (E.propagateRungeKuttaT navigationStep pCache parametersT dSurface).cache.covariance
          = some cov ∧
        cov = E.newCovarianceMatrix
          (E.propagateRungeKuttaT navigationStep pCache parametersT dSurface).cache.jacobian
          (E.covariance parametersT) ∧
        ∀ i, i < 5 → 0 < cov i i) ∧
    ((E.propagateRungeKuttaT navigationStep pCache parametersT dSurface).cache.useJacobian
        = false →
      (∀ n c k s, (E.propagateWithJacobian n c k s).2.1.covariance = c.covariance) →
      (E.propagateRungeKuttaT navigationStep pCache parametersT dSurface).cache.covariance
        = pCache.covariance) := by
  obtain ⟨hconv, c, calls0, hk⟩ :=
    propagate_success_inv E navigationStep pCache parametersT dSurface hres
  have heq := propagate_of_ok E navigationStep pCache parametersT dSurface c calls0 hconv hk
  have hu : (curvilinearFrame E (localFrame E dSurface c)).useJacobian = c.useJacobian := by
    rw [(curvilinearFrame_useJacobian E _).1, (localFrame_flags E dSurface c).1]
  rw [heq] at hres ⊢
  rcases outputStage_success_cache E parametersT dSurface c calls0 hres with
    ⟨huse, hdeg, hc⟩ | ⟨huse, hc⟩
  · rw [hc]
    refine ⟨fun _ => ⟨_, rfl, rfl, positive_of_not_degenerate _ hdeg⟩, ?_⟩
    intro h
    have h2 : (curvilinearFrame E (localFrame E dSurface c)).useJacobian = false := h
    rw [hu, huse] at h2
    exact absurd h2 (by decide)
  · rw [hc]
    refine ⟨?_, ?_⟩
    · intro h
      rw [hu, huse] at h
      exact absurd h (by decide)
    · intro _ hkernel
      have hpres := (surfaceDispatch_preserves (fun c => c.covariance) E hkernel navigationStep
        (afterConversion E pCache parametersT) dSurface
        [Call.transformLocalToGlobal pCache.useJacobian true]).2 c calls0 hk
      rw [curvilinearFrame_covariance, localFrame_covariance]
      exact hpres

/-- Witness of C18: a successful Jacobian transport towards a line surface with
the unit matrix as transported covariance. -/
theorem C18_success_covariance_witness :
    ((demoEngine true true 1 true 1).propagateRungeKuttaT 0
      (demoCache 1 true false false true) () (demoSurface .Line 1)).result = true ∧
    ((demoEngine true true 1 true 1).propagateRungeKuttaT 0
      (demoCache 1 true false false true) () (demoSurface .Line 1)).cache.useJacobian = true ∧
    ∃ cov,
      ((demoEngine true true 1 true 1).propagateRungeKuttaT 0
        (demoCache 1 true false false true) () (demoSurface .Line 1)).cache.covariance
        = some cov ∧
      cov = (demoEngine true true 1 true 1).newCovarianceMatrix
        ((demoEngine true true 1 true 1).propagateRungeKuttaT 0
          (demoCache 1 true false false true) () (demoSurface .Line 1)).cache.jacobian
        ((demoEngine true true 1 true 1).covariance ()) ∧
      ∀ i, i < 5 → 0 < cov i i :=
  ⟨by decide!, by decide!,
    (C18_success_covariance (demoEngine true true 1 true 1) 0
      (demoCache 1 true false false true) () (demoSurface .Line 1) (by decide!)).1
      (by decide!)⟩

end Propagation

end Acts

namespace Acts

section Rectangle

theorem minDistance_inside (b : RectangleBounds ℝ) (pos : ℝ × ℝ)
    (h : |pos.1| - b.halfX ≤ 0 ∨ |pos.2| - b.halfY ≤ 0) :
    b.minDistance Real.sqrt pos = max (|pos.1| - b.halfX) (|pos.2| - b.halfY) := by
  unfold RectangleBounds.minDistance
  simp only []
  rw [if_pos h]
  by_cases hgt : |pos.1| - b.halfX > |pos.2| - b.halfY
  · rw [if_pos hgt, max_eq_left (le_of_lt hgt)]
  · rw [if_neg hgt, max_eq_right (not_lt.mp hgt)]

theorem minDistance_corner (b : RectangleBounds ℝ) (pos : ℝ × ℝ)
    (hx : 0 < |pos.1| - b.halfX) (hy : 0 < |pos.2| - b.halfY) :
    b.minDistance Real.sqrt pos =
      Real.sqrt ((|pos.1| - b.halfX) * (|pos.1| - b.halfX) +
        (|pos.2| - b.halfY) * (|pos.2| - b.halfY)) := by
  unfold RectangleBounds.minDistance
  simp only []
  rw [if_neg]
  rintro (h | h) <;> linarith

/-- C19: over the real numbers, with `Real.sqrt` for `sqrt`, the sign of
`RectangleBounds::minDistance` decides containment: for every rectangle and
every position `(x, y)` the value is at most 0 exactly when `|x| ≤ halfX` and
`|y| ≤ halfY`; and the value is the same at `(-x, y)` and at `(x, -y)`. -/
theorem C19_minDistance_sign (b : RectangleBounds ℝ) (x y : ℝ) :
    (b.minDistance Real.sqrt (x, y) ≤ 0 ↔ |x| ≤ b.halfX ∧ |y| ≤ b.halfY) ∧
    b.minDistance Real.sqrt (-x, y) = b.minDistance Real.sqrt (x, y) ∧
    b.minDistance Real.sqrt (x, -y) = b.minDistance Real.sqrt (x, y) := by
  refine ⟨?_, ?_, ?_⟩
  · by_cases h : |x| - b.halfX ≤ 0 ∨ |y| - b.halfY ≤ 0
    · rw [minDistance_inside b (x, y) h, max_le_iff]
      constructor
      · rintro ⟨h1, h2⟩
        exact ⟨by linarith, by linarith⟩
      · rintro ⟨h1, h2⟩
        exact ⟨by linarith, by linarith⟩
    · rw [not_or] at h
      obtain ⟨h1, h2⟩ := h
      have hx : 0 < |x| - b.halfX := not_le.mp h1
      have hy : 0 < |y| - b.halfY := not_le.mp h2
      rw [minDistance_corner b (x, y) hx hy]
      have hpos : 0 < Real.sqrt ((|x| - b.halfX) * (|x| - b.halfX) +
          (|y| - b.halfY) * (|y| - b.halfY)) :=
        Real.sqrt_pos.mpr (by positivity)
      constructor
      · intro hle
        linarith
      · rintro ⟨h3, _⟩
        linarith
  · unfold RectangleBounds.minDistance
    simp only [abs_neg]
  · unfold RectangleBounds.minDistance
    simp only [abs_neg]

/-- C20: over the real numbers, with `Real.sqrt` for `sqrt`, and for every
rectangle, those with `halfX ≥ 0` and `halfY ≥ 0` in particular: with
`dx = |x| - halfX` and `dy = |y| - halfY`, at a position that is not inside the
rectangle `minDistance` is `sqrt (max(dx,0)^2 + max(dy,0)^2)`, the Euclidean
distance to the rectangle; at a position inside it `minDistance` is
`max(dx, dy)`, which is the negated distance `min(halfX - |x|, halfY - |y|)` to
the nearest edge. -/
theorem C20_minDistance_euclidean (b : RectangleBounds ℝ) (x y : ℝ) :
    (¬ (|x| ≤ b.halfX ∧ |y| ≤ b.halfY) →
      b.minDistance Real.sqrt (x, y) =
        Real.sqrt ((max (|x| - b.halfX) 0) ^ 2 + (max (|y| - b.halfY) 0) ^ 2)) ∧
    (|x| ≤ b.halfX ∧ |y| ≤ b.halfY →
      b.minDistance Real.sqrt (x, y) = max (|x| - b.halfX) (|y| - b.halfY) ∧
      max (|x| - b.halfX) (|y| - b.halfY) = -(min (b.halfX - |x|) (b.halfY - |y|)) ∧
      0 ≤ min (b.halfX - |x|) (b.halfY - |y|)) := by
  refine ⟨?_, ?_⟩
  · intro hout
    by_cases hx : |x| - b.halfX ≤ 0
    · have hy : 0 < |y| - b.halfY := by
        by_contra hcon
        exact hout ⟨by linarith, by linarith [not_lt.mp hcon]⟩
      rw [minDistance_inside b (x, y) (Or.inl hx), max_eq_right (by linarith : _ ≤ _),
        max_eq_right hx, max_eq_left (le_of_lt hy)]
      simp [Real.sqrt_sq (le_of_lt hy)]
    · have hx2 : 0 < |x| - b.halfX := not_le.mp hx
      by_cases hy : |y| - b.halfY ≤ 0
      · rw [minDistance_inside b (x, y) (Or.inr hy), max_eq_left (by linarith : _ ≤ _),
          max_eq_left (le_of_lt hx2), max_eq_right hy]
        simp [Real.sqrt_sq (le_of_lt hx2)]
      · have hy2 : 0 < |y| - b.halfY := not_le.mp hy
        rw [minDistance_corner b (x, y) hx2 hy2, max_eq_left (le_of_lt hx2),
          max_eq_left (le_of_lt hy2)]
        congr 1
        ring
  · rintro ⟨h1, h2⟩
    refine ⟨minDistance_inside b (x, y) (Or.inl (by linarith)), ?_, ?_⟩
    · rw [← max_neg_neg]
      congr 1 <;> ring
    · exact le_min (by linarith) (by linarith)

/-- Witness of C20: the square of half length 1 and the position `(4, 5)`, which
is outside; the distance is that to the corner `(1, 1)`, namely 5. -/
theorem C20_minDistance_euclidean_witness :
    ¬ (|(4 : ℝ)| ≤ (⟨1, 1⟩ : RectangleBounds ℝ).halfX ∧
      |(5 : ℝ)| ≤ (⟨1, 1⟩ : RectangleBounds ℝ).halfY) ∧
    (⟨1, 1⟩ : RectangleBounds ℝ).minDistance Real.sqrt (4, 5) =
      Real.sqrt ((max (|(4 : ℝ)| - (⟨1, 1⟩ : RectangleBounds ℝ).halfX) 0) ^ 2 +
        (max (|(5 : ℝ)| - (⟨1, 1⟩ : RectangleBounds ℝ).halfY) 0) ^ 2) ∧
    (⟨1, 1⟩ : RectangleBounds ℝ).minDistance Real.sqrt (4, 5) = 5 := by
  have hout : ¬ (|(4 : ℝ)| ≤ (⟨1, 1⟩ : RectangleBounds ℝ).halfX ∧
      |(5 : ℝ)| ≤ (⟨1, 1⟩ : RectangleBounds ℝ).halfY) := by
    norm_num
  have h := (C20_minDistance_euclidean ⟨1, 1⟩ 4 5).1 hout
  refine ⟨hout, h, ?_⟩
  rw [h]
  have h25 : (max (|(4 : ℝ)| - (⟨1, 1⟩ : RectangleBounds ℝ).halfX) 0) ^ 2 +
      (max (|(5 : ℝ)| - (⟨1, 1⟩ : RectangleBounds ℝ).halfY) 0) ^ 2 = 5 ^ 2 := by
    norm_num
  rw [h25]
  exact Real.sqrt_sq (by norm_num)

end Rectangle

end Acts
